import Mathlib

/-!
# Order event platform: write path, read path and their idempotency ledgers

A shallow embedding of the Go packages `internal/domain`, `internal/infra` and
`internal/app`.  Go `error` values become the inductive `GoError`, a `(*T, error)`
result becomes a pair of options, and every stateful collaborator (the DynamoDB
tables, the EventBridge bus) becomes an explicit value threaded through the calls.
Logging and metrics emission never influence control flow or the stores and are
left out of the use cases; the redaction of log fields in `pkg/observability` is
embedded on its own.
-/

namespace EventPlatform

/-! ## `internal/domain/errors.go`, `internal/domain/order.go` -/

/-- Go `error` values that occur in the program.  The six sentinels are the package
level `errors.New` variables (compared by identity in Go, by constructor here);
`sdk` is an error produced outside the repository (AWS SDK, `time.Parse`);
`wrapf` is `fmt.Errorf("<msg>: %w", inner)`; `appError` is a `*domain.AppError`
with its four fields. -/
inductive GoError where
  | ErrRetriable
  | ErrNonRetriable
  | ErrInvalidOrderID
  | ErrInvalidCustomerID
  | ErrInvalidTotal
  | ErrOrderAlreadyExists
  | sdk (msg : String)
  | wrapf (msg : String) (inner : GoError)
  | appError (Err : GoError) (Retriable : Bool) (HTTPStatus : Int) (Message : String)
deriving DecidableEq, Repr

def NewValidationError (err : GoError) (message : String) : GoError :=
  .appError err false 400 message

def NewRetriableError (err : GoError) (message : String) : GoError :=
  .appError err true 500 message

def NewNonRetriableError (err : GoError) (message : String) : GoError :=
  .appError err false 500 message

/-- The first `*AppError` on the `Unwrap` chain of `err`, as `errors.As` finds it:
the value itself when it is an `AppError`, otherwise the search continues through
a `%w` wrapper; sentinels and SDK errors end the chain. -/
def asAppError : GoError → Option (GoError × Bool × Int × String)
  | .appError e r s m => some (e, r, s, m)
  | .wrapf _ inner => asAppError inner
  | _ => none

/-- The method `Error()`: the text of a sentinel, the `Sprintf` result of a wrapper,
and for an `AppError` its message when non-empty, else the text of the cause. -/
def GoError.Error : GoError → String
  | .ErrRetriable => "retriable error"
  | .ErrNonRetriable => "non-retriable error"
  | .ErrInvalidOrderID => "invalid order id"
  | .ErrInvalidCustomerID => "invalid customer id"
  | .ErrInvalidTotal => "invalid total: must be greater than 0"
  | .ErrOrderAlreadyExists => "order already exists"
  | .sdk msg => msg
  | .wrapf msg inner => msg ++ ": " ++ inner.Error
  | .appError e _ _ m => if m ≠ "" then m else e.Error

def IsRetriable (err : GoError) : Bool :=
  match asAppError err with
  | some (_, retriable, _, _) => retriable
  | none => false

def HTTPStatus (err : GoError) : Int :=
  match asAppError err with
  | some (_, _, status, _) => status
  | none => 500

/-- An instant as Go's `time.Time` carries it: seconds since the Unix epoch, the
nanosecond part and the zone offset in seconds east of UTC. -/
structure Time where
  sec : Int
  nsec : Nat
  offset : Int
deriving DecidableEq, Repr

def Time.UTC (t : Time) : Time := { t with offset := 0 }

def Time.Unix (t : Time) : Int := t.sec

/-- The call `t.AddDate(0, 0, days)` on a UTC time: whole days of 86400 seconds. -/
def Time.AddDays (t : Time) (days : Int) : Time := { t with sec := t.sec + 86400 * days }

/-- The three uses the program makes of the layout functions of Go's `time`
package, which is not part of the repository: `time.Parse(time.RFC3339, s)`,
`t.Format(time.RFC3339)`, `t.Format("2006-01-02T15:04:05.000Z")` and
`t.Format("2006-01-02T15:04:05Z")`. -/
structure TimeLayouts where
  ParseRFC3339 : String → Except String Time
  FormatRFC3339 : Time → String
  FormatMillis : Time → String
  FormatSeconds : Time → String

/-! ### A calendar implementation of the layouts

The proleptic Gregorian calendar that Go's `time` package uses, enough of it to
read and print the two layouts above.  Results below that quantify over
`TimeLayouts` hold for any implementation; this one makes them executable. -/

/-- Days since 1970-01-01 of the civil date `y-m-d`. -/
def daysFromCivil (y : Int) (m d : Nat) : Int :=
  let y := if m ≤ 2 then y - 1 else y
  let era := y / 400
  let yoe := y - era * 400
  let mp : Int := if m > 2 then (m : Int) - 3 else (m : Int) + 9
  let doy := (153 * mp + 2) / 5 + (d : Int) - 1
  let doe := yoe * 365 + yoe / 4 - yoe / 100 + doy
  era * 146097 + doe - 719468

/-- The civil date `(y, m, d)` of the day `z` days after 1970-01-01. -/
def civilFromDays (z : Int) : Int × Nat × Nat :=
  let z := z + 719468
  let era := z / 146097
  let doe := z - era * 146097
  let yoe := (doe - doe / 1460 + doe / 36524 - doe / 146096) / 365
  let doy := doe - (365 * yoe + yoe / 4 - yoe / 100)
  let mp := (5 * doy + 2) / 153
  let d := doy - (153 * mp + 2) / 5 + 1
  let m := if mp < 10 then mp + 3 else mp - 9
  let y := yoe + era * 400 + (if m ≤ 2 then 1 else 0)
  (y, m.toNat, d.toNat)

def isLeap (y : Int) : Bool := y % 4 == 0 && (y % 100 != 0 || y % 400 == 0)

def daysIn (y : Int) (m : Nat) : Nat :=
  if m == 2 then (if isLeap y then 29 else 28)
  else if m == 4 || m == 6 || m == 9 || m == 11 then 30 else 31

def digitChar (n : Nat) : Char := Char.ofNat (48 + n % 10)

def pad2 (n : Nat) : List Char := [digitChar (n / 10), digitChar n]

def pad3 (n : Nat) : List Char := [digitChar (n / 100), digitChar (n / 10), digitChar n]

def pad4 (n : Nat) : List Char :=
  [digitChar (n / 1000), digitChar (n / 100), digitChar (n / 10), digitChar n]

/-- The characters `YYYY-MM-DDTHH:MM:SS` of the local clock reading of `t`; the year
is printed with its last four digits. -/
def clockChars (t : Time) : List Char :=
  let loc := t.sec + t.offset
  let days := loc / 86400
  let rem := (loc % 86400).toNat
  let (y, m, d) := civilFromDays days
  pad4 y.toNat ++ ['-'] ++ pad2 m ++ ['-'] ++ pad2 d ++ ['T'] ++ pad2 (rem / 3600) ++ [':'] ++
    pad2 (rem / 60 % 60) ++ [':'] ++ pad2 (rem % 60)

def zoneChars (offset : Int) : List Char :=
  if offset = 0 then ['Z']
  else
    let a := offset.natAbs / 60
    [if offset < 0 then '-' else '+'] ++ pad2 (a / 60) ++ [':'] ++ pad2 (a % 60)

def formatRFC3339 (t : Time) : String := String.mk (clockChars t ++ zoneChars t.offset)

def formatMillis (t : Time) : String :=
  String.mk (clockChars t ++ ['.'] ++ pad3 (t.nsec / 1000000) ++ ['Z'])

def digitVal (c : Char) : Option Nat :=
  if '0' ≤ c ∧ c ≤ '9' then some (c.toNat - 48) else none

/-- Reads exactly `n` decimal digits. -/
def readDigits : Nat → List Char → Option (Nat × List Char)
  | 0, cs => some (0, cs)
  | n + 1, cs =>
    match readDigits n cs with
    | some (v, c :: rest) => (digitVal c).map (fun d => (v * 10 + d, rest))
    | _ => none

def expectChar (c : Char) : List Char → Option (List Char)
  | x :: rest => if x = c then some rest else none
  | [] => none

/-- Reads an optional fraction `.ddd…`, giving nanoseconds (digits past the ninth
are dropped). -/
def readFraction : List Char → Nat → Nat → Nat × List Char
  | c :: rest, scale, acc =>
    match digitVal c with
    | some d => readFraction rest (scale / 10) (acc + d * scale)
    | none => (acc, c :: rest)
  | [], _, acc => (acc, [])

def readZone : List Char → Option Int
  | ['Z'] => some 0
  | sign :: rest =>
    if sign = '+' ∨ sign = '-' then
      match readDigits 2 rest with
      | some (hh, rest) =>
        match expectChar ':' rest with
        | some rest =>
          match readDigits 2 rest with
          | some (mm, []) =>
            if hh < 24 ∧ mm < 60 then
              some ((if sign = '-' then -1 else 1) * ((hh * 60 + mm) * 60 : Nat))
            else none
          | _ => none
        | none => none
      | none => none
    else none
  | [] => none

def parseRFC3339 (s : String) : Except String Time :=
  let bad : Except String Time := .error ("parsing time " ++ s ++ " as RFC3339")
  match readDigits 4 s.data with
  | none => bad
  | some (y, cs) =>
  match (expectChar '-' cs).bind (readDigits 2) with
  | none => bad
  | some (m, cs) =>
  match (expectChar '-' cs).bind (readDigits 2) with
  | none => bad
  | some (d, cs) =>
  match (expectChar 'T' cs).bind (readDigits 2) with
  | none => bad
  | some (hh, cs) =>
  match (expectChar ':' cs).bind (readDigits 2) with
  | none => bad
  | some (mi, cs) =>
  match (expectChar ':' cs).bind (readDigits 2) with
  | none => bad
  | some (ss, cs) =>
    let (nsec, cs) :=
      match cs with
      | '.' :: c :: rest =>
        if (digitVal c).isSome then readFraction (c :: rest) 100000000 0 else (0, cs)
      | _ => (0, cs)
    match readZone cs with
    | none => bad
    | some off =>
      if 1 ≤ m ∧ m ≤ 12 ∧ 1 ≤ d ∧ d ≤ daysIn y m ∧ hh < 24 ∧ mi < 60 ∧ ss < 60 then
        .ok { sec := daysFromCivil y m d * 86400 + ((hh * 60 + mi) * 60 + ss : Nat) - off
              nsec := nsec, offset := off }
      else bad

def formatSeconds (t : Time) : String := String.mk (clockChars t ++ ['Z'])

/-- The layouts of Go's `time` package. -/
def goTime : TimeLayouts :=
  { ParseRFC3339 := parseRFC3339, FormatRFC3339 := formatRFC3339, FormatMillis := formatMillis
    FormatSeconds := formatSeconds }

abbrev OrderID := String
abbrev CustomerID := String

structure Order where
  ID : OrderID
  CustomerID : CustomerID
  TotalCents : Int
  CreatedAt : Time
deriving DecidableEq, Repr

def ValidateOrderID (id : OrderID) : Option GoError :=
  if id = "" then some .ErrInvalidOrderID else none

def ValidateCustomerID (customerID : CustomerID) : Option GoError :=
  if customerID = "" then some .ErrInvalidCustomerID else none

def ValidateTotal (totalCents : Int) : Option GoError :=
  if totalCents ≤ 0 then some .ErrInvalidTotal else none

/-- The function `NewOrder`; `now` is the value of `time.Now()` read on the success
path.  The result is the Go pair `(*Order, error)` with `nil` as `none`. -/
def NewOrder (now : Time) (id : OrderID) (customerID : CustomerID) (totalCents : Int) :
    Option Order × Option GoError :=
  match ValidateOrderID id with
  | some err => (none, some err)
  | none =>
    match ValidateCustomerID customerID with
    | some err => (none, some err)
    | none =>
      match ValidateTotal totalCents with
      | some err => (none, some err)
      | none =>
        (some { ID := id, CustomerID := customerID, TotalCents := totalCents,
                CreatedAt := now.UTC }, none)

/-! ## `internal/domain/events.go` -/

def EventTypeOrderCreated : String := "OrderCreated"
def EventSourceOrders : String := "app.orders"
def EventVersionV1 : String := "1.0"

structure OrderCreatedEvent where
  EventID : String
  CorrelationID : String
  OrderID : String
  CustomerID : String
  TotalCents : Int
  CreatedAt : String
  Version : String
deriving DecidableEq, Repr

/-- The struct `Event`.  The field `Data` holds a JSON document; it is represented
by the envelope value that `json.Marshal` was given (`none` for a nil
`RawMessage`). -/
structure Event where
  EventID : String
  CorrelationID : String
  EventType : String
  Source : String
  Version : String
  OrderID : OrderID
  CustomerID : CustomerID
  TotalCents : Int
  CreatedAt : Time
  Data : Option OrderCreatedEvent
deriving DecidableEq, Repr

def NewOrderCreatedEvent (tl : TimeLayouts) (eventID correlationID : String) (order : Order) :
    Event :=
  let orderCreated : OrderCreatedEvent :=
    { EventID := eventID
      CorrelationID := correlationID
      OrderID := order.ID
      CustomerID := order.CustomerID
      TotalCents := order.TotalCents
      CreatedAt := tl.FormatRFC3339 order.CreatedAt
      Version := EventVersionV1 }
  { EventID := eventID
    CorrelationID := correlationID
    EventType := EventTypeOrderCreated
    Source := EventSourceOrders
    Version := EventVersionV1
    OrderID := order.ID
    CustomerID := order.CustomerID
    TotalCents := order.TotalCents
    CreatedAt := order.CreatedAt
    Data := some orderCreated }

def Event.ToEventBridgeDetail (tl : TimeLayouts) (e : Event) : OrderCreatedEvent :=
  { EventID := e.EventID
    CorrelationID := e.CorrelationID
    OrderID := e.OrderID
    CustomerID := e.CustomerID
    TotalCents := e.TotalCents
    CreatedAt := tl.FormatRFC3339 e.CreatedAt
    Version := e.Version }

/-! ## The stores behind `internal/infra` -/

/-- Modelled from the spec: the store collaborator, "a key-value/document store
supporting conditional (existence-checked) single-item writes and point lookups".
A table is the list of its items, each paired with its primary key. -/
abbrev Table (α : Type) := List (String × α)

/-- The two ways a DynamoDB write is refused: the condition expression evaluated to
false (`ConditionalCheckFailedException`), or any other service or transport
failure, which leaves the table as it was. -/
inductive DynamoError where
  | ConditionalCheckFailed
  | Failure (msg : String)
deriving DecidableEq, Repr

/-- The Go `error` value the SDK hands to the caller for a refused write. -/
def DynamoError.toGoError : DynamoError → GoError
  | .ConditionalCheckFailed => .sdk "ConditionalCheckFailedException"
  | .Failure msg => .sdk msg

/-- Number of items stored under `key`. -/
def Table.countKey {α : Type} (t : Table α) (key : String) : Nat :=
  (t.filter (fun p => p.1 == key)).length

/-- Modelled from the spec: the point lookup `GetItem`.  `fault` is the failure the
service reports for this call, if any. -/
def GetItem {α : Type} (fault : Option String) (t : Table α) (key : String) :
    Except String (Option α) :=
  match fault with
  | some msg => .error msg
  | none => .ok (t.lookup key)

/-- Modelled from the spec: the single-item write `PutItem`.  With
`attributeNotExists` the write carries the condition `attribute_not_exists(<key>)`
and is rejected when an item with this key exists; without it the item replaces
whatever is stored under the key (last write wins). -/
def PutItem {α : Type} (fault : Option String) (t : Table α) (key : String) (item : α)
    (attributeNotExists : Bool) : Except DynamoError (Table α) :=
  match fault with
  | some msg => .error (.Failure msg)
  | none =>
    if attributeNotExists && (t.lookup key).isSome then .error .ConditionalCheckFailed
    else .ok ((key, item) :: t.filter (fun p => p.1 != key))

/-! ## `internal/infra/dynamodb_event_repo.go` -/

structure EventItem where
  EventID : String
  OrderID : String
  EventType : String
  Source : String
  Version : String
  CorrelationID : String
  CreatedAt : String
  Data : Option OrderCreatedEvent
deriving DecidableEq, Repr

/-- The method `DynamoDBEventRepository.SaveEvent` on the table `ledger` (primary key
`event_id`).  Marshalling a struct of strings cannot fail, so that branch is
absent.  Returns the table after the call and the Go `error`. -/
def DynamoDBEventRepository.SaveEvent (tl : TimeLayouts) (fault : Option String)
    (ledger : Table EventItem) (event : Event) : Table EventItem × Option GoError :=
  let item : EventItem :=
    { EventID := event.EventID
      OrderID := event.OrderID
      EventType := event.EventType
      Source := event.Source
      Version := event.Version
      CorrelationID := event.CorrelationID
      CreatedAt := tl.FormatMillis event.CreatedAt
      Data := event.Data }
  match PutItem fault ledger item.EventID item true with
  | .error .ConditionalCheckFailed => (ledger, some .ErrOrderAlreadyExists)
  | .error (.Failure msg) => (ledger, some (.wrapf "save event" (.sdk msg)))
  | .ok ledger2 => (ledger2, none)

/-! ## `internal/infra/processed_events_repo.go` -/

structure ProcessedEventItem where
  EventID : String
  ProcessedAt : String
  TTL : Int
deriving DecidableEq, Repr

/-- The method `DynamoDBProcessedEventsRepository.MarkAsProcessed`; `now` is the
value of `time.Now()` read by the call and `ttlDays` the field of the receiver. -/
def DynamoDBProcessedEventsRepository.MarkAsProcessed (tl : TimeLayouts) (ttlDays : Int)
    (now : Time) (fault : Option String) (processed : Table ProcessedEventItem)
    (eventID : String) : Table ProcessedEventItem × Option GoError :=
  let now := now.UTC
  let ttl := (now.AddDays ttlDays).Unix
  let item : ProcessedEventItem :=
    { EventID := eventID, ProcessedAt := tl.FormatRFC3339 now, TTL := ttl }
  match PutItem fault processed eventID item true with
  | .error .ConditionalCheckFailed => (processed, none)
  | .error (.Failure msg) => (processed, some (.wrapf "mark event as processed" (.sdk msg)))
  | .ok processed2 => (processed2, none)

/-- The method `DynamoDBProcessedEventsRepository.IsProcessed`, the Go pair
`(bool, error)`. -/
def DynamoDBProcessedEventsRepository.IsProcessed (fault : Option String)
    (processed : Table ProcessedEventItem) (eventID : String) : Bool × Option GoError :=
  match GetItem fault processed eventID with
  | .error msg => (false, some (.wrapf "check processed event" (.sdk msg)))
  | .ok item => (item.isSome, none)

/-- The table after a history of `MarkAsProcessed` calls, oldest first, each given
by its clock reading, the failure the store reports for it and the event id. -/
def markHistory (tl : TimeLayouts) (ttlDays : Int) :
    List (Time × Option String × String) → Table ProcessedEventItem → Table ProcessedEventItem
  | [], t => t
  | (now, fault, eventID) :: rest, t =>
    markHistory tl ttlDays rest
      (DynamoDBProcessedEventsRepository.MarkAsProcessed tl ttlDays now fault t eventID).1

/-! ## `internal/infra/dynamodb_read_repo.go` -/

structure OrderItem where
  OrderID : String
  CustomerID : String
  TotalCents : Int
  CreatedAt : String
deriving DecidableEq, Repr

/-- The method `DynamoDBReadModelRepository.SaveOrder`: an unconditional `PutItem`
under the primary key `order_id`. -/
def DynamoDBReadModelRepository.SaveOrder (tl : TimeLayouts) (fault : Option String)
    (orders : Table OrderItem) (order : Order) : Table OrderItem × Option GoError :=
  let item : OrderItem :=
    { OrderID := order.ID
      CustomerID := order.CustomerID
      TotalCents := order.TotalCents
      CreatedAt := tl.FormatRFC3339 order.CreatedAt }
  match PutItem fault orders item.OrderID item false with
  | .error e => (orders, some (.wrapf "save order" e.toGoError))
  | .ok orders2 => (orders2, none)

/-! ## `internal/infra/eventbridge_publisher.go` -/

/-- One entry handed to `PutEvents`; `Detail` is the JSON of the envelope,
represented by the envelope itself. -/
structure PutEventsRequestEntry where
  Source : String
  DetailType : String
  Detail : OrderCreatedEvent
deriving DecidableEq, Repr

/-- The method `EventBridgePublisher.PublishEvent`; the bus is the list of entries it
has accepted, newest first.  Marshalling the envelope cannot fail. -/
def EventBridgePublisher.PublishEvent (tl : TimeLayouts) (fault : Option String)
    (bus : List PutEventsRequestEntry) (event : Event) :
    List PutEventsRequestEntry × Option GoError :=
  let detail := event.ToEventBridgeDetail tl
  match fault with
  | some msg => (bus, some (.wrapf "publish event" (.sdk msg)))
  | none => ({ Source := event.Source, DetailType := event.EventType, Detail := detail } :: bus, none)

/-! ## `internal/app/apply_order_created.go` (read path) -/

/-- A call made on one of the repository or publisher interfaces. -/
inductive Call where
  | IsProcessed (eventID : String)
  | SaveOrder (order : Order)
  | MarkAsProcessed (eventID : String)
  | SaveEvent (event : Event)
  | PublishEvent (event : Event)
deriving DecidableEq, Repr

structure OrderCreatedEventDetail where
  EventID : String
  CorrelationID : String
  OrderID : String
  CustomerID : String
  TotalCents : Int
  CreatedAt : String
deriving DecidableEq, Repr

/-- The two tables the projection works on. -/
structure ReadSide where
  orders : Table OrderItem
  processed : Table ProcessedEventItem
deriving DecidableEq, Repr

/-- What the surroundings decide during one delivery: the clock reading used by
`MarkAsProcessed` and, per repository call, the failure the store reports (if any). -/
structure ApplyEnv where
  now : Time
  isProcessedFault : Option String
  saveOrderFault : Option String
  markAsProcessedFault : Option String
deriving DecidableEq, Repr

/-- A delivery during which every store call goes through. -/
def ApplyEnv.healthy (now : Time) : ApplyEnv :=
  { now := now, isProcessedFault := none, saveOrderFault := none, markAsProcessedFault := none }

/-- A delivery during which only the final `MarkAsProcessed` call fails. -/
def ApplyEnv.markFails (now : Time) (msg : String) : ApplyEnv :=
  { now := now, isProcessedFault := none, saveOrderFault := none
    markAsProcessedFault := some msg }

structure ApplyResult where
  err : Option GoError
  state : ReadSide
  calls : List (Call × Option GoError)
deriving DecidableEq, Repr

/-- The method `ApplyOrderCreatedUseCase.Execute` wired, as in
`cmd/projection-handler`, to the two DynamoDB repositories.  `calls` lists the
repository calls in the order they were made, each with the `error` it returned. -/
def ApplyOrderCreatedUseCase.Execute (tl : TimeLayouts) (ttlDays : Int) (env : ApplyEnv)
    (s : ReadSide) (detail : OrderCreatedEventDetail) : ApplyResult :=
  match DynamoDBProcessedEventsRepository.IsProcessed env.isProcessedFault s.processed
      detail.EventID with
  | (_, some err) =>
    { err := some (NewRetriableError err "failed to check processed status")
      state := s, calls := [(.IsProcessed detail.EventID, some err)] }
  | (processed, none) =>
    if processed then
      { err := none, state := s, calls := [(.IsProcessed detail.EventID, none)] }
    else
      match tl.ParseRFC3339 detail.CreatedAt with
      | .error msg =>
        { err := some (NewNonRetriableError (.sdk msg) "invalid created_at format")
          state := s, calls := [(.IsProcessed detail.EventID, none)] }
      | .ok createdAt =>
        let order : Order :=
          { ID := detail.OrderID
            CustomerID := detail.CustomerID
            TotalCents := detail.TotalCents
            CreatedAt := createdAt }
        match DynamoDBReadModelRepository.SaveOrder tl env.saveOrderFault s.orders order with
        | (orders, some err) =>
          { err := some (NewRetriableError err "failed to save order")
            state := { s with orders := orders }
            calls := [(.IsProcessed detail.EventID, none), (.SaveOrder order, some err)] }
        | (orders, none) =>
          match DynamoDBProcessedEventsRepository.MarkAsProcessed tl ttlDays env.now
              env.markAsProcessedFault s.processed detail.EventID with
          | (processed2, some err) =>
            { err := some (NewRetriableError err "failed to mark event as processed")
              state := { orders := orders, processed := processed2 }
              calls := [(.IsProcessed detail.EventID, none), (.SaveOrder order, none),
                        (.MarkAsProcessed detail.EventID, some err)] }
          | (processed2, none) =>
            { err := none
              state := { orders := orders, processed := processed2 }
              calls := [(.IsProcessed detail.EventID, none), (.SaveOrder order, none),
                        (.MarkAsProcessed detail.EventID, none)] }

/-- The inbound event of the read-path scenario. -/
def sampleDetail : OrderCreatedEventDetail :=
  { EventID := "e1", CorrelationID := "corr-1", OrderID := "o1", CustomerID := "c1"
    TotalCents := 100, CreatedAt := "2024-01-01T00:00:00Z" }

/-- The same event with a `created_at` that is not a timestamp. -/
def malformedDetail : OrderCreatedEventDetail := { sampleDetail with CreatedAt := "yesterday" }

def emptyReadSide : ReadSide := { orders := [], processed := [] }

/-- The read side after `sampleDetail` was applied on 2024-01-01 at 00:00:05 UTC. -/
def appliedReadSide : ReadSide :=
  { orders := [("o1", { OrderID := "o1", CustomerID := "c1", TotalCents := 100
                        CreatedAt := "2024-01-01T00:00:00Z" })]
    processed := [("e1", { EventID := "e1", ProcessedAt := "2024-01-01T00:00:05Z"
                           TTL := 1711843205 })] }

/-! ## `internal/app/create_order.go` (write path) -/

structure CreateOrderRequest where
  OrderID : String
  CustomerID : String
  TotalCents : Int
deriving DecidableEq, Repr

/-- The event ledger table and the bus. -/
structure WriteSide where
  ledger : Table EventItem
  bus : List PutEventsRequestEntry
deriving DecidableEq, Repr

/-- What the surroundings decide during one command: the two `uuid.New().String()`
draws (the first is consumed only when the request has no order id), the clock
reading of `NewOrder`, and the failures of the store and of the bus. -/
structure CreateEnv where
  orderUUID : String
  eventUUID : String
  now : Time
  saveEventFault : Option String
  publishFault : Option String
deriving DecidableEq, Repr

structure CreateResult where
  order : Option Order
  err : Option GoError
  state : WriteSide
  calls : List (Call × Option GoError)
deriving DecidableEq, Repr

/-- The method `CreateOrderUseCase.Execute` wired, as in `cmd/command-handler`, to
the DynamoDB event repository and the EventBridge publisher.  `NewOrder` never
returns `(nil, nil)`; Go would dereference the nil order there, and the embedding
returns without touching anything. -/
def CreateOrderUseCase.Execute (tl : TimeLayouts) (env : CreateEnv) (s : WriteSide)
    (req : CreateOrderRequest) (correlationID : String) : CreateResult :=
  let orderID : OrderID := if req.OrderID = "" then env.orderUUID else req.OrderID
  match NewOrder env.now orderID req.CustomerID req.TotalCents with
  | (_, some err) =>
    { order := none
      err := some (NewValidationError err ("invalid order: " ++ err.Error))
      state := s, calls := [] }
  | (none, none) =>
    { order := none, err := none, state := s, calls := [] }
  | (some order, none) =>
    let eventID := env.eventUUID
    let event := NewOrderCreatedEvent tl eventID correlationID order
    match DynamoDBEventRepository.SaveEvent tl env.saveEventFault s.ledger event with
    | (ledger, some err) =>
      if err = .ErrOrderAlreadyExists then
        { order := none, err := some (NewNonRetriableError err "order already exists")
          state := { s with ledger := ledger }, calls := [(.SaveEvent event, some err)] }
      else
        { order := none, err := some (NewRetriableError err "failed to save event")
          state := { s with ledger := ledger }, calls := [(.SaveEvent event, some err)] }
    | (ledger, none) =>
      match EventBridgePublisher.PublishEvent tl env.publishFault s.bus event with
      | (bus, some err) =>
        { order := none, err := some (NewRetriableError err "failed to publish event")
          state := { ledger := ledger, bus := bus }
          calls := [(.SaveEvent event, none), (.PublishEvent event, some err)] }
      | (bus, none) =>
        { order := some order, err := none
          state := { ledger := ledger, bus := bus }
          calls := [(.SaveEvent event, none), (.PublishEvent event, none)] }

/-- The order id `Execute` hands to `NewOrder`: the one of the request, or the
`uuid` draw when the request has none. -/
def CreateOrderUseCase.resolveOrderID (env : CreateEnv) (req : CreateOrderRequest) : OrderID :=
  if req.OrderID = "" then env.orderUUID else req.OrderID

/-- The record `SaveEvent` writes for an event. -/
def DynamoDBEventRepository.itemOf (tl : TimeLayouts) (event : Event) : EventItem :=
  { EventID := event.EventID
    OrderID := event.OrderID
    EventType := event.EventType
    Source := event.Source
    Version := event.Version
    CorrelationID := event.CorrelationID
    CreatedAt := tl.FormatMillis event.CreatedAt
    Data := event.Data }

/-- The command of the write-path scenario: no order id, so one is generated. -/
def sampleRequest : CreateOrderRequest := { OrderID := "", CustomerID := "cust-1", TotalCents := 500 }

def emptyWriteSide : WriteSide := { ledger := [], bus := [] }

/-- A command during which store and bus accept every call; the identifier
generator hands out `ord-1` and `evt-1`. -/
def sampleCreateEnv : CreateEnv :=
  { orderUUID := "ord-1", eventUUID := "evt-1", now := ⟨1704067200, 0, 0⟩
    saveEventFault := none, publishFault := none }

/-! ## `pkg/observability/correlation.go`, `cmd/command-handler`, `cmd/projection-handler` -/

/-- The function `GetOrGenerateCorrelationID`; `uuid` is the `uuid.New().String()` draw
used when the header is empty. -/
def GetOrGenerateCorrelationID (uuid : String) (headerValue : String) : String :=
  if headerValue ≠ "" then headerValue else uuid

/-- A JSON document handed to `json.Unmarshal`, represented by what decoding makes of
it: the decoded struct, or the decoder's error for a document that does not decode. -/
inductive Payload (α : Type) where
  | decoded (v : α)
  | undecodable (err : String)
deriving DecidableEq, Repr

/-- The body of a response: the document `{"error": message}` or the document with
the four fields of a created order. -/
inductive ResponseBody where
  | error (message : String)
  | order (order_id customer_id : String) (total_cents : Int) (created_at : String)
deriving DecidableEq, Repr

structure APIGatewayV2HTTPRequest where
  Headers : List (String × String)
  Body : Payload CreateOrderRequest
deriving DecidableEq, Repr

structure APIGatewayV2HTTPResponse where
  StatusCode : Int
  Body : ResponseBody
  Headers : List (String × String)
deriving DecidableEq, Repr

/-- What the surroundings decide during one invocation of the command handler: the
`uuid` draw for a missing correlation header and the surroundings of the use case. -/
structure CommandEnv where
  correlationUUID : String
  create : CreateEnv
deriving DecidableEq, Repr

/-- The result of the command handler.  Its Go `error` is nil on every path, so only
the response is kept; `response = none` stands for the nil dereference of `order`
when the use case returns `(nil, nil)`. -/
structure CommandResult where
  response : Option APIGatewayV2HTTPResponse
  state : WriteSide
deriving DecidableEq, Repr

/-- The function `handler` of `cmd/command-handler/main.go`.  The status of a failure
is 500 unless the error is itself an `*AppError` (a type assertion, no unwrapping). -/
def CommandHandler.handler (tl : TimeLayouts) (env : CommandEnv) (s : WriteSide)
    (req : APIGatewayV2HTTPRequest) : CommandResult :=
  let correlationID :=
    GetOrGenerateCorrelationID env.correlationUUID
      ((req.Headers.lookup "x-correlation-id").getD "")
  match req.Body with
  | .undecodable _ =>
    { response := some { StatusCode := 400, Body := .error "invalid request body", Headers := [] }
      state := s }
  | .decoded createReq =>
    let r := CreateOrderUseCase.Execute tl env.create s
      { OrderID := createReq.OrderID, CustomerID := createReq.CustomerID
        TotalCents := createReq.TotalCents } correlationID
    match r.err, r.order with
    | some err, _ =>
      let httpStatus : Int :=
        match err with
        | .appError _ _ status _ => status
        | _ => 500
      { response := some { StatusCode := httpStatus, Body := .error err.Error
                           Headers := [("X-Correlation-Id", correlationID)] }
        state := r.state }
    | none, none => { response := none, state := r.state }
    | none, some order =>
      { response := some
          { StatusCode := 201
            Body := .order order.ID order.CustomerID order.TotalCents
              (tl.FormatSeconds order.CreatedAt)
            Headers := [("Content-Type", "application/json"),
                        ("X-Correlation-Id", correlationID)] }
        state := r.state }

structure EventBridgeEvent where
  Source : String
  DetailType : String
  Detail : Payload OrderCreatedEventDetail
deriving DecidableEq, Repr

/-- The function `handler` of `cmd/projection-handler/main.go`, with the processed
events repository of its wiring (retention of 90 days).  Returns the Go `error`
handed back to the runtime (nil acknowledges the delivery) and the tables. -/
def ProjectionHandler.handler (tl : TimeLayouts) (env : ApplyEnv) (s : ReadSide)
    (event : EventBridgeEvent) : Option GoError × ReadSide :=
  match event.Detail with
  | .undecodable err => (some (.wrapf "failed to unmarshal event detail" (.sdk err)), s)
  | .decoded detail =>
    let r := ApplyOrderCreatedUseCase.Execute tl 90 env s detail
    match r.err with
    | some err => if IsRetriable err then (some err, r.state) else (none, r.state)
    | none => (none, r.state)

/-- The correlation id the command handler works with. -/
def CommandHandler.correlationID (env : CommandEnv) (req : APIGatewayV2HTTPRequest) : String :=
  GetOrGenerateCorrelationID env.correlationUUID
    ((req.Headers.lookup "x-correlation-id").getD "")

/-- The write side after the sample command was handled: one event `evt-1` in the
ledger and on the bus. -/
def createdWriteSide : WriteSide :=
  (CreateOrderUseCase.Execute goTime sampleCreateEnv emptyWriteSide sampleRequest "corr-1").state

/-- The sample command resubmitted with the identity it was given. -/
def resubmittedRequest : CreateOrderRequest :=
  { OrderID := "ord-1", CustomerID := "cust-1", TotalCents := 500 }

/-- An inbound event whose customer id is empty and whose total is zero. -/
def invalidDetail : OrderCreatedEventDetail :=
  { sampleDetail with CustomerID := "", TotalCents := 0 }

/-! ## `pkg/observability/logger.go` -/

/-- The bytes of a Go string constant (its UTF-8 encoding). -/
def goBytes (s : String) : List UInt8 := s.toList.flatMap String.utf8EncodeChar

/-- A value held in a `map[string]interface{}`.  Either its dynamic type is `string`,
and it is given by its bytes, which is what `len` counts and what a slice expression
cuts; or it is anything else (a named string type such as `domain.OrderID`, a
number, a nested map, nil), given by the name of its type and its printed form. -/
inductive FieldValue where
  | string (bytes : List UInt8)
  | other (goType : String) (text : String)
deriving DecidableEq, Repr

/-- A non-nil Go map from field names to values: its entries in the order `range`
visits them.  A map holds each key once. -/
abbrev Fields := List (String × FieldValue)

/-- The assignment `m[k] = v`: the value under an existing key is replaced, a new
key is added. -/
def Fields.set (m : Fields) (k : String) (v : FieldValue) : Fields :=
  if (m.lookup k).isSome then m.map (fun p => if p.1 == k then (k, v) else p)
  else m ++ [(k, v)]

/-- The function `sanitizeFields`; `none` is the nil map.  The loop over the entries
is a left fold that carries the map `sanitized`. -/
def sanitizeFields (fields : Option Fields) : Option Fields :=
  match fields with
  | none => none
  | some entries =>
    some (entries.foldl
      (fun sanitized kv =>
        if kv.1 = "payload" ∨ kv.1 = "body" ∨ kv.1 = "data" then
          sanitized.set kv.1 (.string (goBytes "[REDACTED]"))
        else
          match kv.2 with
          | .string str =>
            if str.length > 500 then sanitized.set kv.1 (.string (str.take 500 ++ goBytes "..."))
            else sanitized.set kv.1 kv.2
          | .other _ _ => sanitized.set kv.1 kv.2)
      [])

/-- What the redaction rule prescribes for the value `v` stored under the key `k`:
the constant under the three protected keys, a string cut to 500 bytes and the
ellipsis when it is longer than that, and the value itself otherwise. -/
def redactedValue (k : String) (v : FieldValue) : FieldValue :=
  if k = "payload" ∨ k = "body" ∨ k = "data" then .string (goBytes "[REDACTED]")
  else
    match v with
    | .string str => if str.length > 500 then .string (str.take 500 ++ goBytes "...") else v
    | .other _ _ => v

/-- The fields of a log call with a request body, a long error text and an
order id. -/
def sampleFields : Fields :=
  [("body", .string (goBytes "card=4111111111111111")),
   ("error", .string (List.replicate 600 120)),
   ("order_id", .other "domain.OrderID" "ord-1")]

/-! ## Facts about the store -/

theorem Table.lookup_eq_none_of_countKey {α : Type} (t : Table α) (key : String)
    (h : t.countKey key = 0) : List.lookup key t = none := by
  induction t with
  | nil => rfl
  | cons p rest ih =>
    obtain ⟨k, v⟩ := p
    by_cases hk : k = key
    · subst hk
      simp [Table.countKey, List.filter_cons] at h
    · have hne : (key == k) = false := by simpa using fun h' => hk h'.symm
      have hne2 : (k == key) = false := by simpa using hk
      have h2 : Table.countKey rest key = 0 := by
        simpa [Table.countKey, List.filter_cons, hne2] using h
      simp [List.lookup_cons, hne, ih h2]

theorem Table.countKey_of_lookup_eq_none {α : Type} (t : Table α) (key : String)
    (h : List.lookup key t = none) : t.countKey key = 0 := by
  induction t with
  | nil => rfl
  | cons p rest ih =>
    obtain ⟨k, v⟩ := p
    by_cases hk : k = key
    · subst hk
      simp [List.lookup_cons] at h
    · have hne : (key == k) = false := by simpa using fun h' => hk h'.symm
      have hne2 : (k == key) = false := by simpa using hk
      have h2 : List.lookup key rest = none := by simpa [List.lookup_cons, hne] using h
      simpa [Table.countKey, List.filter_cons, hne2] using ih h2

theorem Table.countKey_filter_ne {α : Type} (t : Table α) (key : String) :
    Table.countKey (t.filter (fun p => p.1 != key)) key = 0 := by
  simp [Table.countKey, List.filter_filter]

theorem Table.countKey_put {α : Type} (t : Table α) (key : String) (item : α) :
    Table.countKey ((key, item) :: t.filter (fun p => p.1 != key)) key = 1 := by
  have h := Table.countKey_filter_ne t key
  simp only [Table.countKey] at h ⊢
  simp [List.filter_cons, h]

theorem Table.lookup_put {α : Type} (t : Table α) (key : String) (item : α) :
    List.lookup key ((key, item) :: t.filter (fun p => p.1 != key)) = some item := by
  simp [List.lookup_cons]

theorem PutItem_absent {α : Type} (t : Table α) (key : String) (item : α) (cond : Bool)
    (h : List.lookup key t = none) :
    PutItem none t key item cond = .ok ((key, item) :: t.filter (fun p => p.1 != key)) := by
  simp [PutItem, h]

theorem PutItem_present {α : Type} (t : Table α) (key : String) (item old : α)
    (h : List.lookup key t = some old) :
    PutItem none t key item true = .error .ConditionalCheckFailed := by
  simp [PutItem, h]

theorem Table.countKey_put_other {α : Type} (t : Table α) (key other : String) (item : α)
    (h : other ≠ key) :
    Table.countKey ((other, item) :: t.filter (fun p => p.1 != other)) key
      = Table.countKey t key := by
  have hne : (other == key) = false := by simpa using h
  simp only [Table.countKey, List.filter_cons, hne, List.filter_filter]
  have hcongr : ∀ p ∈ t, (p.1 == key && p.1 != other) = (p.1 == key) := by
    intro p _
    by_cases hp : p.1 = key
    · have : p.1 ≠ other := by rw [hp]; exact fun h' => h h'.symm
      simp [hp, this] at *
      exact fun h' => h h'.symm
    · simp [hp]
  simp [List.filter_congr hcongr]

theorem MarkAsProcessed_other (tl : TimeLayouts) (ttlDays : Int) (now : Time)
    (fault : Option String) (t : Table ProcessedEventItem) (key other : String)
    (h : other ≠ key) :
    Table.countKey
        (DynamoDBProcessedEventsRepository.MarkAsProcessed tl ttlDays now fault t other).1 key
      = Table.countKey t key := by
  unfold DynamoDBProcessedEventsRepository.MarkAsProcessed PutItem
  cases fault with
  | some msg => rfl
  | none =>
    by_cases hl : (List.lookup other t).isSome = true
    · simp [hl]
    · simp only [Bool.true_and, hl]
      exact Table.countKey_put_other t key other _ h

theorem markHistory_other (tl : TimeLayouts) (ttlDays : Int)
    (history : List (Time × Option String × String)) (t : Table ProcessedEventItem)
    (key : String) (h : ∀ c ∈ history, c.2.2 ≠ key) :
    Table.countKey (markHistory tl ttlDays history t) key = Table.countKey t key := by
  induction history generalizing t with
  | nil => rfl
  | cons c rest ih =>
    obtain ⟨now, fault, other⟩ := c
    have hother : other ≠ key := h (now, fault, other) (List.mem_cons_self _ _)
    have hrest : ∀ c ∈ rest, c.2.2 ≠ key := fun c hc => h c (List.mem_cons_of_mem _ hc)
    simp only [markHistory]
    rw [ih _ hrest]
    exact MarkAsProcessed_other tl ttlDays now fault t key other hother

theorem MarkAsProcessed_lookup (tl : TimeLayouts) (ttlDays : Int) (now : Time)
    (t : Table ProcessedEventItem) (key : String) :
    (DynamoDBProcessedEventsRepository.MarkAsProcessed tl ttlDays now none t key).2 = none ∧
    (List.lookup key
      (DynamoDBProcessedEventsRepository.MarkAsProcessed tl ttlDays now none t key).1).isSome
        = true := by
  unfold DynamoDBProcessedEventsRepository.MarkAsProcessed PutItem
  by_cases hl : (List.lookup key t).isSome = true
  · simp [hl]
  · simp [hl]

theorem MarkAsProcessed_marked (tl : TimeLayouts) (ttlDays : Int) (now : Time)
    (t : Table ProcessedEventItem) (key : String)
    (h : (List.lookup key t).isSome = true) :
    DynamoDBProcessedEventsRepository.MarkAsProcessed tl ttlDays now none t key = (t, none) := by
  unfold DynamoDBProcessedEventsRepository.MarkAsProcessed PutItem
  simp [h]

/-! ## Event ledger -/

/-- Claim C1: when the store itself reports no failure, for every ledger and every
event whose `EventID` is not yet in the ledger the first `SaveEvent` returns no
error, an immediately following `SaveEvent` of an event with the same `EventID`
returns `ErrOrderAlreadyExists` and leaves the ledger unchanged, and the ledger
then holds exactly one record with that `EventID`. -/
theorem SaveEvent_conditional_insert (tl : TimeLayouts) (ledger : Table EventItem)
    (e e2 : Event) (hnew : ledger.countKey e.EventID = 0) (hsame : e2.EventID = e.EventID) :
    (DynamoDBEventRepository.SaveEvent tl none ledger e).2 = none ∧
    (DynamoDBEventRepository.SaveEvent tl none
        (DynamoDBEventRepository.SaveEvent tl none ledger e).1 e2).2
      = some .ErrOrderAlreadyExists ∧
    (DynamoDBEventRepository.SaveEvent tl none
        (DynamoDBEventRepository.SaveEvent tl none ledger e).1 e2).1
      = (DynamoDBEventRepository.SaveEvent tl none ledger e).1 ∧
    Table.countKey (DynamoDBEventRepository.SaveEvent tl none
        (DynamoDBEventRepository.SaveEvent tl none ledger e).1 e2).1 e.EventID = 1 := by
  have hlook := Table.lookup_eq_none_of_countKey ledger e.EventID hnew
  have h1 : ∀ item : EventItem, PutItem none ledger e.EventID item true
      = .ok ((e.EventID, item) :: ledger.filter (fun p => p.1 != e.EventID)) :=
    fun item => PutItem_absent ledger e.EventID item true hlook
  have h2 : ∀ item item2 : EventItem,
      PutItem none ((e.EventID, item) :: ledger.filter (fun p => p.1 != e.EventID))
        e.EventID item2 true = .error .ConditionalCheckFailed :=
    fun item item2 => PutItem_present _ e.EventID item2 item (Table.lookup_put ledger _ item)
  simp only [DynamoDBEventRepository.SaveEvent, h1, hsame, h2]
  exact ⟨trivial, trivial, trivial, Table.countKey_put ledger e.EventID _⟩

theorem SaveEvent_conditional_insert_witness :
    (DynamoDBEventRepository.SaveEvent goTime none [] (NewOrderCreatedEvent goTime "event-123"
        "corr-123" ⟨"order-123", "customer-456", 10000, ⟨1704067200, 0, 0⟩⟩)).2 = none ∧
    (DynamoDBEventRepository.SaveEvent goTime none
        (DynamoDBEventRepository.SaveEvent goTime none [] (NewOrderCreatedEvent goTime
          "event-123" "corr-123" ⟨"order-123", "customer-456", 10000, ⟨1704067200, 0, 0⟩⟩)).1
        (NewOrderCreatedEvent goTime "event-123" "corr-123"
          ⟨"order-123", "customer-456", 10000, ⟨1704067200, 0, 0⟩⟩)).2
      = some .ErrOrderAlreadyExists ∧
    (DynamoDBEventRepository.SaveEvent goTime none
        (DynamoDBEventRepository.SaveEvent goTime none [] (NewOrderCreatedEvent goTime
          "event-123" "corr-123" ⟨"order-123", "customer-456", 10000, ⟨1704067200, 0, 0⟩⟩)).1
        (NewOrderCreatedEvent goTime "event-123" "corr-123"
          ⟨"order-123", "customer-456", 10000, ⟨1704067200, 0, 0⟩⟩)).1
      = (DynamoDBEventRepository.SaveEvent goTime none [] (NewOrderCreatedEvent goTime
          "event-123" "corr-123" ⟨"order-123", "customer-456", 10000, ⟨1704067200, 0, 0⟩⟩)).1 ∧
    Table.countKey (DynamoDBEventRepository.SaveEvent goTime none
        (DynamoDBEventRepository.SaveEvent goTime none [] (NewOrderCreatedEvent goTime
          "event-123" "corr-123" ⟨"order-123", "customer-456", 10000, ⟨1704067200, 0, 0⟩⟩)).1
        (NewOrderCreatedEvent goTime "event-123" "corr-123"
          ⟨"order-123", "customer-456", 10000, ⟨1704067200, 0, 0⟩⟩)).1
        (NewOrderCreatedEvent goTime "event-123" "corr-123"
          ⟨"order-123", "customer-456", 10000, ⟨1704067200, 0, 0⟩⟩).EventID = 1 :=
  SaveEvent_conditional_insert goTime [] _ _ rfl rfl

/-! ## Processed-event ledger -/

/-- Claim C2: with a store that reports no failure, `IsProcessed(id)` is false as
long as no `MarkAsProcessed(id)` was made (from a table without a record for `id`,
across any history of marks of other ids); it is true after a `MarkAsProcessed(id)`
from any table; and a second `MarkAsProcessed(id)` returns no error and leaves the
table exactly as the first call left it, with one record for `id` when there was
none before. -/
theorem ProcessedEvents_mark_contract (tl : TimeLayouts) (ttlDays : Int)
    (t0 s : Table ProcessedEventItem) (history : List (Time × Option String × String))
    (id : String) (now1 now2 : Time)
    (hfresh : t0.countKey id = 0) (hnever : ∀ c ∈ history, c.2.2 ≠ id) :
    DynamoDBProcessedEventsRepository.IsProcessed none (markHistory tl ttlDays history t0) id
      = (false, none) ∧
    (DynamoDBProcessedEventsRepository.MarkAsProcessed tl ttlDays now1 none s id).2 = none ∧
    DynamoDBProcessedEventsRepository.IsProcessed none
      (DynamoDBProcessedEventsRepository.MarkAsProcessed tl ttlDays now1 none s id).1 id
      = (true, none) ∧
    DynamoDBProcessedEventsRepository.MarkAsProcessed tl ttlDays now2 none
      (DynamoDBProcessedEventsRepository.MarkAsProcessed tl ttlDays now1 none s id).1 id
      = ((DynamoDBProcessedEventsRepository.MarkAsProcessed tl ttlDays now1 none s id).1, none) ∧
    (s.countKey id = 0 →
      Table.countKey (DynamoDBProcessedEventsRepository.MarkAsProcessed tl ttlDays now2 none
        (DynamoDBProcessedEventsRepository.MarkAsProcessed tl ttlDays now1 none s id).1 id).1 id
        = 1) := by
  have hmark := MarkAsProcessed_lookup tl ttlDays now1 s id
  have hsecond := MarkAsProcessed_marked tl ttlDays now2 _ id hmark.2
  refine ⟨?_, hmark.1, ?_, hsecond, ?_⟩
  · have hcount : Table.countKey (markHistory tl ttlDays history t0) id = 0 := by
      rw [markHistory_other tl ttlDays history t0 id hnever]; exact hfresh
    simp [DynamoDBProcessedEventsRepository.IsProcessed, GetItem,
      Table.lookup_eq_none_of_countKey _ id hcount]
  · simp [DynamoDBProcessedEventsRepository.IsProcessed, GetItem, hmark.2]
  · intro hs
    rw [hsecond]
    have hl := Table.lookup_eq_none_of_countKey s id hs
    simp only [DynamoDBProcessedEventsRepository.MarkAsProcessed, PutItem_absent s id _ true hl]
    exact Table.countKey_put s id _

theorem ProcessedEvents_mark_contract_witness :
    DynamoDBProcessedEventsRepository.IsProcessed none
      (markHistory goTime 90 [(⟨1704067200, 0, 0⟩, none, "event-7")] []) "event-123"
      = (false, none) ∧
    (DynamoDBProcessedEventsRepository.MarkAsProcessed goTime 90 ⟨1704067200, 0, 0⟩ none []
      "event-123").2 = none ∧
    DynamoDBProcessedEventsRepository.IsProcessed none
      (DynamoDBProcessedEventsRepository.MarkAsProcessed goTime 90 ⟨1704067200, 0, 0⟩ none []
        "event-123").1 "event-123" = (true, none) ∧
    DynamoDBProcessedEventsRepository.MarkAsProcessed goTime 90 ⟨1704070800, 0, 0⟩ none
      (DynamoDBProcessedEventsRepository.MarkAsProcessed goTime 90 ⟨1704067200, 0, 0⟩ none []
        "event-123").1 "event-123"
      = ((DynamoDBProcessedEventsRepository.MarkAsProcessed goTime 90 ⟨1704067200, 0, 0⟩ none []
        "event-123").1, none) ∧
    (Table.countKey ([] : Table ProcessedEventItem) "event-123" = 0 →
      Table.countKey (DynamoDBProcessedEventsRepository.MarkAsProcessed goTime 90
        ⟨1704070800, 0, 0⟩ none
        (DynamoDBProcessedEventsRepository.MarkAsProcessed goTime 90 ⟨1704067200, 0, 0⟩ none []
          "event-123").1 "event-123").1 "event-123" = 1) :=
  ProcessedEvents_mark_contract goTime 90 [] [] [(⟨1704067200, 0, 0⟩, none, "event-7")]
    "event-123" ⟨1704067200, 0, 0⟩ ⟨1704070800, 0, 0⟩ rfl (by decide)

/-! ## Projection applier -/

theorem Execute_of_processed (tl : TimeLayouts) (ttlDays : Int) (env : ApplyEnv) (s : ReadSide)
    (d : OrderCreatedEventDetail)
    (h : DynamoDBProcessedEventsRepository.IsProcessed env.isProcessedFault s.processed
      d.EventID = (true, none)) :
    ApplyOrderCreatedUseCase.Execute tl ttlDays env s d
      = { err := none, state := s, calls := [(.IsProcessed d.EventID, none)] } := by
  simp [ApplyOrderCreatedUseCase.Execute, h]

theorem Execute_of_parse_error (tl : TimeLayouts) (ttlDays : Int) (env : ApplyEnv)
    (s : ReadSide) (d : OrderCreatedEventDetail) (msg : String)
    (h : DynamoDBProcessedEventsRepository.IsProcessed env.isProcessedFault s.processed
      d.EventID = (false, none))
    (hparse : tl.ParseRFC3339 d.CreatedAt = .error msg) :
    ApplyOrderCreatedUseCase.Execute tl ttlDays env s d
      = { err := some (NewNonRetriableError (.sdk msg) "invalid created_at format")
          state := s, calls := [(.IsProcessed d.EventID, none)] } := by
  simp [ApplyOrderCreatedUseCase.Execute, h, hparse]

theorem IsProcessed_false (fault : Option String) (t : Table ProcessedEventItem)
    (id : String)
    (h : DynamoDBProcessedEventsRepository.IsProcessed fault t id = (false, none)) :
    fault = none ∧ List.lookup id t = none := by
  cases fault with
  | some msg => simp [DynamoDBProcessedEventsRepository.IsProcessed, GetItem] at h
  | none =>
    cases hl : List.lookup id t with
    | none => exact ⟨rfl, rfl⟩
    | some v => simp [DynamoDBProcessedEventsRepository.IsProcessed, GetItem, hl] at h

theorem Execute_of_success (tl : TimeLayouts) (ttlDays : Int) (env : ApplyEnv) (s : ReadSide)
    (d : OrderCreatedEventDetail) (t : Time)
    (h : DynamoDBProcessedEventsRepository.IsProcessed env.isProcessedFault s.processed
      d.EventID = (false, none))
    (hparse : tl.ParseRFC3339 d.CreatedAt = .ok t)
    (hsave : env.saveOrderFault = none) (hmark : env.markAsProcessedFault = none) :
    ApplyOrderCreatedUseCase.Execute tl ttlDays env s d
      = { err := none
          state :=
            { orders := (DynamoDBReadModelRepository.SaveOrder tl none s.orders
                ⟨d.OrderID, d.CustomerID, d.TotalCents, t⟩).1
              processed := (DynamoDBProcessedEventsRepository.MarkAsProcessed tl ttlDays env.now
                none s.processed d.EventID).1 }
          calls := [(.IsProcessed d.EventID, none),
                    (.SaveOrder ⟨d.OrderID, d.CustomerID, d.TotalCents, t⟩, none),
                    (.MarkAsProcessed d.EventID, none)] } := by
  have hl := (IsProcessed_false _ _ _ h).2
  simp [ApplyOrderCreatedUseCase.Execute, h, hparse, hsave, hmark,
    DynamoDBReadModelRepository.SaveOrder, DynamoDBProcessedEventsRepository.MarkAsProcessed,
    PutItem, hl]

theorem Execute_of_mark_failure (tl : TimeLayouts) (ttlDays : Int) (env : ApplyEnv)
    (s : ReadSide) (d : OrderCreatedEventDetail) (t : Time) (msg : String)
    (h : DynamoDBProcessedEventsRepository.IsProcessed env.isProcessedFault s.processed
      d.EventID = (false, none))
    (hparse : tl.ParseRFC3339 d.CreatedAt = .ok t)
    (hsave : env.saveOrderFault = none) (hmark : env.markAsProcessedFault = some msg) :
    ApplyOrderCreatedUseCase.Execute tl ttlDays env s d
      = { err := some (NewRetriableError (.wrapf "mark event as processed" (.sdk msg))
            "failed to mark event as processed")
          state :=
            { orders := (DynamoDBReadModelRepository.SaveOrder tl none s.orders
                ⟨d.OrderID, d.CustomerID, d.TotalCents, t⟩).1
              processed := s.processed }
          calls := [(.IsProcessed d.EventID, none),
                    (.SaveOrder ⟨d.OrderID, d.CustomerID, d.TotalCents, t⟩, none),
                    (.MarkAsProcessed d.EventID,
                      some (.wrapf "mark event as processed" (.sdk msg)))] } := by
  simp [ApplyOrderCreatedUseCase.Execute, h, hparse, hsave, hmark,
    DynamoDBReadModelRepository.SaveOrder, DynamoDBProcessedEventsRepository.MarkAsProcessed,
    PutItem]

theorem SaveOrder_overwrite (tl : TimeLayouts) (orders : Table OrderItem) (o : Order) :
    (DynamoDBReadModelRepository.SaveOrder tl none
      (DynamoDBReadModelRepository.SaveOrder tl none orders o).1 o).1
      = (DynamoDBReadModelRepository.SaveOrder tl none orders o).1 := by
  simp [DynamoDBReadModelRepository.SaveOrder, PutItem, List.filter_cons, List.filter_filter]

theorem MarkAsProcessed_ids (tl : TimeLayouts) (ttlDays : Int) (now now2 : Time)
    (t : Table ProcessedEventItem) (id : String) :
    (DynamoDBProcessedEventsRepository.MarkAsProcessed tl ttlDays now none t id).1.map Prod.fst
      = (DynamoDBProcessedEventsRepository.MarkAsProcessed tl ttlDays now2 none t id).1.map
          Prod.fst := by
  unfold DynamoDBProcessedEventsRepository.MarkAsProcessed PutItem
  by_cases hl : (List.lookup id t).isSome = true
  · simp [hl]
  · simp [hl]

/-- Claim C3: for every inbound event detail with a parsable `created_at`, every
initial read model and processed-event table, and stores that do not fail, running
`Execute` twice in sequence returns nil both times and leaves both tables equal to
the state after the first run. -/
theorem Execute_twice_eq_once (tl : TimeLayouts) (ttlDays : Int) (now1 now2 : Time)
    (s : ReadSide) (d : OrderCreatedEventDetail) (t : Time)
    (hparse : tl.ParseRFC3339 d.CreatedAt = .ok t) :
    (ApplyOrderCreatedUseCase.Execute tl ttlDays (ApplyEnv.healthy now1) s d).err = none ∧
    (ApplyOrderCreatedUseCase.Execute tl ttlDays (ApplyEnv.healthy now2)
      (ApplyOrderCreatedUseCase.Execute tl ttlDays (ApplyEnv.healthy now1) s d).state d).err
      = none ∧
    (ApplyOrderCreatedUseCase.Execute tl ttlDays (ApplyEnv.healthy now2)
      (ApplyOrderCreatedUseCase.Execute tl ttlDays (ApplyEnv.healthy now1) s d).state d).state
      = (ApplyOrderCreatedUseCase.Execute tl ttlDays (ApplyEnv.healthy now1) s d).state := by
  cases hl : List.lookup d.EventID s.processed with
  | some item =>
    have h : ∀ now, DynamoDBProcessedEventsRepository.IsProcessed
        (ApplyEnv.healthy now).isProcessedFault s.processed d.EventID = (true, none) := by
      intro now
      simp [DynamoDBProcessedEventsRepository.IsProcessed, GetItem, ApplyEnv.healthy, hl]
    rw [Execute_of_processed tl ttlDays _ s d (h now1)]
    simp only
    rw [Execute_of_processed tl ttlDays _ s d (h now2)]
    refine ⟨?_, ?_, ?_⟩ <;> first | rfl | trivial
  | none =>
    have h : DynamoDBProcessedEventsRepository.IsProcessed
        (ApplyEnv.healthy now1).isProcessedFault s.processed d.EventID = (false, none) := by
      simp [DynamoDBProcessedEventsRepository.IsProcessed, GetItem, ApplyEnv.healthy, hl]
    rw [Execute_of_success tl ttlDays _ s d t h hparse rfl rfl]
    simp only
    have h2 : DynamoDBProcessedEventsRepository.IsProcessed
        (ApplyEnv.healthy now2).isProcessedFault
        (DynamoDBProcessedEventsRepository.MarkAsProcessed tl ttlDays
          (ApplyEnv.healthy now1).now none s.processed d.EventID).1 d.EventID
          = (true, none) := by
      simp [DynamoDBProcessedEventsRepository.IsProcessed, GetItem, ApplyEnv.healthy,
        (MarkAsProcessed_lookup tl ttlDays now1 s.processed d.EventID).2]
    rw [Execute_of_processed tl ttlDays _ _ d h2]
    refine ⟨?_, ?_, ?_⟩ <;> first | rfl | trivial

theorem Execute_twice_eq_once_witness :
    goTime.ParseRFC3339 sampleDetail.CreatedAt = .ok ⟨1704067200, 0, 0⟩ ∧
    ((ApplyOrderCreatedUseCase.Execute goTime 90 (ApplyEnv.healthy ⟨1704067205, 0, 0⟩)
        emptyReadSide sampleDetail).err = none ∧
    (ApplyOrderCreatedUseCase.Execute goTime 90 (ApplyEnv.healthy ⟨1704067300, 0, 0⟩)
      (ApplyOrderCreatedUseCase.Execute goTime 90 (ApplyEnv.healthy ⟨1704067205, 0, 0⟩)
        emptyReadSide sampleDetail).state sampleDetail).err = none ∧
    (ApplyOrderCreatedUseCase.Execute goTime 90 (ApplyEnv.healthy ⟨1704067300, 0, 0⟩)
      (ApplyOrderCreatedUseCase.Execute goTime 90 (ApplyEnv.healthy ⟨1704067205, 0, 0⟩)
        emptyReadSide sampleDetail).state sampleDetail).state
      = (ApplyOrderCreatedUseCase.Execute goTime 90 (ApplyEnv.healthy ⟨1704067205, 0, 0⟩)
          emptyReadSide sampleDetail).state) :=
  ⟨rfl, Execute_twice_eq_once goTime 90 ⟨1704067205, 0, 0⟩ ⟨1704067300, 0, 0⟩ emptyReadSide
    sampleDetail ⟨1704067200, 0, 0⟩ rfl⟩

/-- Claim C5: for every inbound event detail, whatever its other fields, and every
state in which `IsProcessed(d.EventID)` returns true, `Execute` returns nil, calls
neither `SaveOrder` nor `MarkAsProcessed`, and leaves the read model and the
processed-event table unchanged. -/
theorem Execute_redelivery_no_writes (tl : TimeLayouts) (ttlDays : Int) (env : ApplyEnv)
    (s : ReadSide) (d : OrderCreatedEventDetail)
    (h : DynamoDBProcessedEventsRepository.IsProcessed env.isProcessedFault s.processed
      d.EventID = (true, none)) :
    (ApplyOrderCreatedUseCase.Execute tl ttlDays env s d).err = none ∧
    (ApplyOrderCreatedUseCase.Execute tl ttlDays env s d).state = s ∧
    (∀ c ∈ (ApplyOrderCreatedUseCase.Execute tl ttlDays env s d).calls,
      (∀ o, c.1 ≠ .SaveOrder o) ∧ (∀ x, c.1 ≠ .MarkAsProcessed x)) := by
  rw [Execute_of_processed tl ttlDays env s d h]
  simp

theorem Execute_redelivery_no_writes_witness :
    DynamoDBProcessedEventsRepository.IsProcessed
      (ApplyEnv.healthy ⟨1704067300, 0, 0⟩).isProcessedFault appliedReadSide.processed
      malformedDetail.EventID = (true, none) ∧
    ((ApplyOrderCreatedUseCase.Execute goTime 90 (ApplyEnv.healthy ⟨1704067300, 0, 0⟩)
      appliedReadSide malformedDetail).err = none ∧
    (ApplyOrderCreatedUseCase.Execute goTime 90 (ApplyEnv.healthy ⟨1704067300, 0, 0⟩)
      appliedReadSide malformedDetail).state = appliedReadSide ∧
    (∀ c ∈ (ApplyOrderCreatedUseCase.Execute goTime 90 (ApplyEnv.healthy ⟨1704067300, 0, 0⟩)
        appliedReadSide malformedDetail).calls,
      (∀ o, c.1 ≠ .SaveOrder o) ∧ (∀ x, c.1 ≠ .MarkAsProcessed x))) :=
  ⟨rfl, Execute_redelivery_no_writes goTime 90 (ApplyEnv.healthy ⟨1704067300, 0, 0⟩)
    appliedReadSide malformedDetail rfl⟩

/-- Claim C6: for every inbound event detail whose `EventID` is not yet processed
and whose `created_at` does not parse as RFC3339, `Execute` returns an error that
is not retriable, calls neither `SaveOrder` nor `MarkAsProcessed`, and leaves the
read model and the processed-event table unchanged. -/
theorem Execute_parse_failure_terminal (tl : TimeLayouts) (ttlDays : Int) (env : ApplyEnv)
    (s : ReadSide) (d : OrderCreatedEventDetail) (msg : String)
    (h : DynamoDBProcessedEventsRepository.IsProcessed env.isProcessedFault s.processed
      d.EventID = (false, none))
    (hparse : tl.ParseRFC3339 d.CreatedAt = .error msg) :
    (∃ e, (ApplyOrderCreatedUseCase.Execute tl ttlDays env s d).err = some e ∧
      IsRetriable e = false) ∧
    (ApplyOrderCreatedUseCase.Execute tl ttlDays env s d).state = s ∧
    (∀ c ∈ (ApplyOrderCreatedUseCase.Execute tl ttlDays env s d).calls,
      (∀ o, c.1 ≠ .SaveOrder o) ∧ (∀ x, c.1 ≠ .MarkAsProcessed x)) := by
  rw [Execute_of_parse_error tl ttlDays env s d msg h hparse]
  simp [IsRetriable, asAppError, NewNonRetriableError]

theorem Execute_parse_failure_terminal_witness :
    DynamoDBProcessedEventsRepository.IsProcessed
      (ApplyEnv.healthy ⟨1704067300, 0, 0⟩).isProcessedFault emptyReadSide.processed
      malformedDetail.EventID = (false, none) ∧
    goTime.ParseRFC3339 malformedDetail.CreatedAt
      = .error "parsing time yesterday as RFC3339" ∧
    ((∃ e, (ApplyOrderCreatedUseCase.Execute goTime 90 (ApplyEnv.healthy ⟨1704067300, 0, 0⟩)
        emptyReadSide malformedDetail).err = some e ∧ IsRetriable e = false) ∧
    (ApplyOrderCreatedUseCase.Execute goTime 90 (ApplyEnv.healthy ⟨1704067300, 0, 0⟩)
      emptyReadSide malformedDetail).state = emptyReadSide ∧
    (∀ c ∈ (ApplyOrderCreatedUseCase.Execute goTime 90 (ApplyEnv.healthy ⟨1704067300, 0, 0⟩)
        emptyReadSide malformedDetail).calls,
      (∀ o, c.1 ≠ .SaveOrder o) ∧ (∀ x, c.1 ≠ .MarkAsProcessed x))) :=
  ⟨rfl, rfl, Execute_parse_failure_terminal goTime 90 (ApplyEnv.healthy ⟨1704067300, 0, 0⟩)
    emptyReadSide malformedDetail "parsing time yesterday as RFC3339" rfl rfl⟩

/-- Claim C7: whenever `Execute` reaches a repository call that fails (`IsProcessed`,
`SaveOrder` or `MarkAsProcessed` returning an error), it returns an error that is
retriable; and it returns a retriable error only when one of those calls failed. -/
theorem Execute_retriable_iff_store_failure (tl : TimeLayouts) (ttlDays : Int)
    (env : ApplyEnv) (s : ReadSide) (d : OrderCreatedEventDetail) :
    (∃ c e, (c, some e) ∈ (ApplyOrderCreatedUseCase.Execute tl ttlDays env s d).calls ∧
      (c = .IsProcessed d.EventID ∨ (∃ o, c = .SaveOrder o) ∨ c = .MarkAsProcessed d.EventID))
    ↔ (∃ e, (ApplyOrderCreatedUseCase.Execute tl ttlDays env s d).err = some e ∧
        IsRetriable e = true) := by
  obtain ⟨now, f1, f2, f3⟩ := env
  cases f1 <;> cases f2 <;> cases f3 <;> cases hp : tl.ParseRFC3339 d.CreatedAt <;>
    cases hl : List.lookup d.EventID s.processed <;>
    simp [ApplyOrderCreatedUseCase.Execute, DynamoDBProcessedEventsRepository.IsProcessed,
      DynamoDBProcessedEventsRepository.MarkAsProcessed, DynamoDBReadModelRepository.SaveOrder,
      GetItem, PutItem, hp, hl, IsRetriable, asAppError, NewRetriableError,
      NewNonRetriableError]

/-- Claim C8: for every unprocessed inbound event detail with a parsable
`created_at`, a delivery in which `SaveOrder` succeeds and `MarkAsProcessed` fails
leaves the event unmarked, and a following fully successful `Execute` ends in the
state a single fully successful `Execute` reaches from the initial state: the same
tables when both read the same clock, and for any clock the same read model and the
same set of processed event ids.  In every run `MarkAsProcessed` is called only
after `SaveOrder` returned nil in that run. -/
theorem Execute_reentry_after_mark_failure (tl : TimeLayouts) (ttlDays : Int)
    (now1 now2 now3 : Time) (s : ReadSide) (d : OrderCreatedEventDetail) (t : Time)
    (msg : String)
    (hun : DynamoDBProcessedEventsRepository.IsProcessed none s.processed d.EventID
      = (false, none))
    (hparse : tl.ParseRFC3339 d.CreatedAt = .ok t) :
    (ApplyOrderCreatedUseCase.Execute tl ttlDays (ApplyEnv.markFails now1 msg) s d).calls
      = [(.IsProcessed d.EventID, none),
         (.SaveOrder ⟨d.OrderID, d.CustomerID, d.TotalCents, t⟩, none),
         (.MarkAsProcessed d.EventID, some (.wrapf "mark event as processed" (.sdk msg)))] ∧
    DynamoDBProcessedEventsRepository.IsProcessed none
      (ApplyOrderCreatedUseCase.Execute tl ttlDays (ApplyEnv.markFails now1 msg) s d).state.processed
      d.EventID = (false, none) ∧
    (ApplyOrderCreatedUseCase.Execute tl ttlDays (ApplyEnv.healthy now2)
      (ApplyOrderCreatedUseCase.Execute tl ttlDays (ApplyEnv.markFails now1 msg) s d).state
      d).err = none ∧
    (ApplyOrderCreatedUseCase.Execute tl ttlDays (ApplyEnv.healthy now3) s d).err = none ∧
    (ApplyOrderCreatedUseCase.Execute tl ttlDays (ApplyEnv.healthy now2)
      (ApplyOrderCreatedUseCase.Execute tl ttlDays (ApplyEnv.markFails now1 msg) s d).state
      d).state
      = (ApplyOrderCreatedUseCase.Execute tl ttlDays (ApplyEnv.healthy now2) s d).state ∧
    (ApplyOrderCreatedUseCase.Execute tl ttlDays (ApplyEnv.healthy now2)
      (ApplyOrderCreatedUseCase.Execute tl ttlDays (ApplyEnv.markFails now1 msg) s d).state
      d).state.orders
      = (ApplyOrderCreatedUseCase.Execute tl ttlDays (ApplyEnv.healthy now3) s d).state.orders ∧
    (ApplyOrderCreatedUseCase.Execute tl ttlDays (ApplyEnv.healthy now2)
      (ApplyOrderCreatedUseCase.Execute tl ttlDays (ApplyEnv.markFails now1 msg) s d).state
      d).state.processed.map Prod.fst
      = (ApplyOrderCreatedUseCase.Execute tl ttlDays (ApplyEnv.healthy now3) s
          d).state.processed.map Prod.fst ∧
    (∀ (env0 : ApplyEnv) (s0 : ReadSide) (d0 : OrderCreatedEventDetail) (x : String)
        (e : Option GoError),
      (Call.MarkAsProcessed x, e) ∈ (ApplyOrderCreatedUseCase.Execute tl ttlDays env0 s0 d0).calls →
      ∃ o, (ApplyOrderCreatedUseCase.Execute tl ttlDays env0 s0 d0).calls
        = [(.IsProcessed d0.EventID, none), (.SaveOrder o, none), (.MarkAsProcessed x, e)]) := by
  have hcrash := Execute_of_mark_failure tl ttlDays (ApplyEnv.markFails now1 msg) s d t msg
    hun hparse rfl rfl
  have hsingle : ∀ now, ApplyOrderCreatedUseCase.Execute tl ttlDays (ApplyEnv.healthy now) s d
      = _ := fun now => Execute_of_success tl ttlDays (ApplyEnv.healthy now) s d t hun hparse
        rfl rfl
  have hretry := Execute_of_success tl ttlDays (ApplyEnv.healthy now2)
    { orders := (DynamoDBReadModelRepository.SaveOrder tl none s.orders
        ⟨d.OrderID, d.CustomerID, d.TotalCents, t⟩).1
      processed := s.processed } d t hun hparse rfl rfl
  rw [hcrash]
  simp only
  rw [hretry, hsingle now2, hsingle now3]
  simp only [SaveOrder_overwrite]
  refine ⟨trivial, hun, trivial, trivial, trivial, trivial, ?_, ?_⟩
  · exact MarkAsProcessed_ids tl ttlDays _ _ s.processed d.EventID
  · intro env0 s0 d0 x e
    obtain ⟨now, f1, f2, f3⟩ := env0
    cases f1 <;> cases f2 <;> cases f3 <;> cases hp : tl.ParseRFC3339 d0.CreatedAt <;>
      cases hl : List.lookup d0.EventID s0.processed <;>
      simp [ApplyOrderCreatedUseCase.Execute, DynamoDBProcessedEventsRepository.IsProcessed,
        DynamoDBProcessedEventsRepository.MarkAsProcessed,
        DynamoDBReadModelRepository.SaveOrder, GetItem, PutItem, hp, hl] <;>
      try (intro h1 h2; exact ⟨h1.symm, h2.symm⟩)

theorem Execute_reentry_after_mark_failure_witness :
    DynamoDBProcessedEventsRepository.IsProcessed none emptyReadSide.processed
      sampleDetail.EventID = (false, none) ∧
    goTime.ParseRFC3339 sampleDetail.CreatedAt = .ok ⟨1704067200, 0, 0⟩ ∧
    (ApplyOrderCreatedUseCase.Execute goTime 90 (ApplyEnv.healthy ⟨1704067300, 0, 0⟩)
      (ApplyOrderCreatedUseCase.Execute goTime 90
        (ApplyEnv.markFails ⟨1704067205, 0, 0⟩ "ProvisionedThroughputExceededException")
        emptyReadSide sampleDetail).state sampleDetail).state
      = (ApplyOrderCreatedUseCase.Execute goTime 90 (ApplyEnv.healthy ⟨1704067300, 0, 0⟩)
          emptyReadSide sampleDetail).state :=
  ⟨rfl, rfl, (Execute_reentry_after_mark_failure goTime 90 ⟨1704067205, 0, 0⟩
    ⟨1704067300, 0, 0⟩ ⟨1704067400, 0, 0⟩ emptyReadSide sampleDetail ⟨1704067200, 0, 0⟩
    "ProvisionedThroughputExceededException" rfl rfl).2.2.2.2.1⟩

/-! ## Command handler -/

theorem NewOrder_eq (now : Time) (id : OrderID) (customerID : CustomerID) (totalCents : Int) :
    NewOrder now id customerID totalCents
      = if id = "" then (none, some .ErrInvalidOrderID)
        else if customerID = "" then (none, some .ErrInvalidCustomerID)
        else if totalCents ≤ 0 then (none, some .ErrInvalidTotal)
        else (some ⟨id, customerID, totalCents, now.UTC⟩, none) := by
  by_cases hid : id = "" <;> by_cases hcust : customerID = "" <;>
    by_cases htotal : totalCents ≤ 0 <;>
    simp [NewOrder, ValidateOrderID, ValidateCustomerID, ValidateTotal, hid, hcust, htotal]

theorem NewOrder_some (now : Time) (id : OrderID) (customerID : CustomerID) (totalCents : Int)
    (o : Order) (e : Option GoError) (h : NewOrder now id customerID totalCents = (some o, e)) :
    e = none ∧ o = ⟨id, customerID, totalCents, now.UTC⟩ ∧ id ≠ "" ∧ customerID ≠ "" ∧
      0 < totalCents := by
  rw [NewOrder_eq] at h
  by_cases hid : id = "" <;> by_cases hcust : customerID = "" <;>
    by_cases htotal : totalCents ≤ 0 <;> simp [hid, hcust, htotal] at h
  exact ⟨h.2.symm, h.1.symm, hid, hcust, not_le.mp htotal⟩

theorem Create_of_invalid (tl : TimeLayouts) (env : CreateEnv) (s : WriteSide)
    (req : CreateOrderRequest) (c : String) (o : Option Order) (err : GoError)
    (h : NewOrder env.now (CreateOrderUseCase.resolveOrderID env req) req.CustomerID
      req.TotalCents = (o, some err)) :
    CreateOrderUseCase.Execute tl env s req c
      = { order := none, err := some (NewValidationError err ("invalid order: " ++ err.Error))
          state := s, calls := [] } := by
  simp only [CreateOrderUseCase.resolveOrderID] at h
  simp [CreateOrderUseCase.Execute, h]

theorem Create_of_save_fault (tl : TimeLayouts) (env : CreateEnv) (s : WriteSide)
    (req : CreateOrderRequest) (c : String) (o : Order) (msg : String)
    (h : NewOrder env.now (CreateOrderUseCase.resolveOrderID env req) req.CustomerID
      req.TotalCents = (some o, none))
    (hsave : env.saveEventFault = some msg) :
    CreateOrderUseCase.Execute tl env s req c
      = { order := none
          err := some (NewRetriableError (.wrapf "save event" (.sdk msg)) "failed to save event")
          state := s
          calls := [(.SaveEvent (NewOrderCreatedEvent tl env.eventUUID c o),
                     some (.wrapf "save event" (.sdk msg)))] } := by
  simp only [CreateOrderUseCase.resolveOrderID] at h
  simp [CreateOrderUseCase.Execute, h, hsave, DynamoDBEventRepository.SaveEvent, PutItem]

theorem Create_of_conflict (tl : TimeLayouts) (env : CreateEnv) (s : WriteSide)
    (req : CreateOrderRequest) (c : String) (o : Order)
    (h : NewOrder env.now (CreateOrderUseCase.resolveOrderID env req) req.CustomerID
      req.TotalCents = (some o, none))
    (hsave : env.saveEventFault = none)
    (hold : (List.lookup env.eventUUID s.ledger).isSome = true) :
    CreateOrderUseCase.Execute tl env s req c
      = { order := none
          err := some (NewNonRetriableError .ErrOrderAlreadyExists "order already exists")
          state := s
          calls := [(.SaveEvent (NewOrderCreatedEvent tl env.eventUUID c o),
                     some .ErrOrderAlreadyExists)] } := by
  simp only [CreateOrderUseCase.resolveOrderID] at h
  simp [CreateOrderUseCase.Execute, h, hsave, DynamoDBEventRepository.SaveEvent, PutItem,
    NewOrderCreatedEvent, hold]

theorem Create_of_publish_fault (tl : TimeLayouts) (env : CreateEnv) (s : WriteSide)
    (req : CreateOrderRequest) (c : String) (o : Order) (msg : String)
    (h : NewOrder env.now (CreateOrderUseCase.resolveOrderID env req) req.CustomerID
      req.TotalCents = (some o, none))
    (hsave : env.saveEventFault = none)
    (hnew : List.lookup env.eventUUID s.ledger = none)
    (hpub : env.publishFault = some msg) :
    CreateOrderUseCase.Execute tl env s req c
      = { order := none
          err := some (NewRetriableError (.wrapf "publish event" (.sdk msg))
            "failed to publish event")
          state :=
            { ledger := (env.eventUUID, DynamoDBEventRepository.itemOf tl
                  (NewOrderCreatedEvent tl env.eventUUID c o))
                :: s.ledger.filter (fun p => p.1 != env.eventUUID)
              bus := s.bus }
          calls := [(.SaveEvent (NewOrderCreatedEvent tl env.eventUUID c o), none),
                    (.PublishEvent (NewOrderCreatedEvent tl env.eventUUID c o),
                      some (.wrapf "publish event" (.sdk msg)))] } := by
  simp only [CreateOrderUseCase.resolveOrderID] at h
  simp [CreateOrderUseCase.Execute, h, hsave, hpub, DynamoDBEventRepository.SaveEvent, PutItem,
    NewOrderCreatedEvent, hnew, EventBridgePublisher.PublishEvent,
    DynamoDBEventRepository.itemOf]

theorem Create_of_success (tl : TimeLayouts) (env : CreateEnv) (s : WriteSide)
    (req : CreateOrderRequest) (c : String) (o : Order)
    (h : NewOrder env.now (CreateOrderUseCase.resolveOrderID env req) req.CustomerID
      req.TotalCents = (some o, none))
    (hsave : env.saveEventFault = none)
    (hnew : List.lookup env.eventUUID s.ledger = none)
    (hpub : env.publishFault = none) :
    CreateOrderUseCase.Execute tl env s req c
      = { order := some o
          err := none
          state :=
            { ledger := (env.eventUUID, DynamoDBEventRepository.itemOf tl
                  (NewOrderCreatedEvent tl env.eventUUID c o))
                :: s.ledger.filter (fun p => p.1 != env.eventUUID)
              bus := { Source := EventSourceOrders, DetailType := EventTypeOrderCreated
                       Detail := (NewOrderCreatedEvent tl env.eventUUID c o).ToEventBridgeDetail
                         tl } :: s.bus }
          calls := [(.SaveEvent (NewOrderCreatedEvent tl env.eventUUID c o), none),
                    (.PublishEvent (NewOrderCreatedEvent tl env.eventUUID c o), none)] } := by
  simp only [CreateOrderUseCase.resolveOrderID] at h
  simp [CreateOrderUseCase.Execute, h, hsave, hpub, DynamoDBEventRepository.SaveEvent, PutItem,
    NewOrderCreatedEvent, hnew, EventBridgePublisher.PublishEvent,
    DynamoDBEventRepository.itemOf]


theorem NewOrder_none (now : Time) (id : OrderID) (customerID : CustomerID) (totalCents : Int)
    (o : Option Order) (err : GoError)
    (h : NewOrder now id customerID totalCents = (o, some err)) :
    o = none ∧ ((id = "" ∧ err = .ErrInvalidOrderID) ∨
      (id ≠ "" ∧ customerID = "" ∧ err = .ErrInvalidCustomerID) ∨
      (id ≠ "" ∧ customerID ≠ "" ∧ totalCents ≤ 0 ∧ err = .ErrInvalidTotal)) := by
  rw [NewOrder_eq] at h
  by_cases hid : id = "" <;> by_cases hcust : customerID = "" <;>
    by_cases htotal : totalCents ≤ 0 <;> simp [hid, hcust, htotal] at h <;>
    simp [h.1.symm, h.2.symm, hid, hcust, htotal]

theorem NewOrder_of_valid (now : Time) (id : OrderID) (customerID : CustomerID)
    (totalCents : Int) (hid : id ≠ "") (hcust : customerID ≠ "") (htotal : 0 < totalCents) :
    NewOrder now id customerID totalCents
      = (some ⟨id, customerID, totalCents, now.UTC⟩, none) := by
  rw [NewOrder_eq]
  simp [hid, hcust, not_le.mpr htotal]

/-- The five ways a run of the command use case can go. -/
theorem Create_cases (env : CreateEnv) (s : WriteSide) (req : CreateOrderRequest) :
    (∃ err, NewOrder env.now (CreateOrderUseCase.resolveOrderID env req) req.CustomerID
      req.TotalCents = (none, some err)) ∨
    (∃ o, NewOrder env.now (CreateOrderUseCase.resolveOrderID env req) req.CustomerID
        req.TotalCents = (some o, none) ∧
      ((∃ msg, env.saveEventFault = some msg) ∨
       (env.saveEventFault = none ∧ (List.lookup env.eventUUID s.ledger).isSome = true) ∨
       (env.saveEventFault = none ∧ List.lookup env.eventUUID s.ledger = none ∧
          ∃ msg, env.publishFault = some msg) ∨
       (env.saveEventFault = none ∧ List.lookup env.eventUUID s.ledger = none ∧
          env.publishFault = none))) := by
  cases hN : NewOrder env.now (CreateOrderUseCase.resolveOrderID env req) req.CustomerID
      req.TotalCents with
  | mk o e =>
    cases o with
    | none =>
      cases e with
      | none =>
        rw [NewOrder_eq] at hN
        by_cases hid : CreateOrderUseCase.resolveOrderID env req = "" <;>
          by_cases hcust : req.CustomerID = "" <;>
          by_cases htotal : req.TotalCents ≤ 0 <;> simp [hid, hcust, htotal] at hN
      | some err => exact Or.inl ⟨err, rfl⟩
    | some o =>
      obtain ⟨rfl, -⟩ := NewOrder_some _ _ _ _ o e hN
      refine Or.inr ⟨o, rfl, ?_⟩
      cases hs : env.saveEventFault with
      | some msg => exact Or.inl ⟨msg, rfl⟩
      | none =>
        cases hl : List.lookup env.eventUUID s.ledger with
        | some old => exact Or.inr (Or.inl ⟨rfl, rfl⟩)
        | none =>
          cases hp : env.publishFault with
          | some msg => exact Or.inr (Or.inr (Or.inl ⟨rfl, rfl, msg, rfl⟩))
          | none => exact Or.inr (Or.inr (Or.inr ⟨rfl, rfl, rfl⟩))

/-- Claim C20: for every event id, correlation id and Order, the envelope that
`NewOrderCreatedEvent` stores in the `Data` field of the event is equal, field by
field, to the envelope `ToEventBridgeDetail` derives from that event, including the
formatted `created_at` and the version. -/
theorem NewOrderCreatedEvent_data_eq_detail (tl : TimeLayouts) (eventID correlationID : String)
    (order : Order) :
    (NewOrderCreatedEvent tl eventID correlationID order).Data
      = some ((NewOrderCreatedEvent tl eventID correlationID order).ToEventBridgeDetail tl) ∧
    ((NewOrderCreatedEvent tl eventID correlationID order).ToEventBridgeDetail tl).CreatedAt
      = tl.FormatRFC3339 order.CreatedAt ∧
    ((NewOrderCreatedEvent tl eventID correlationID order).ToEventBridgeDetail tl).Version
      = "1.0" :=
  ⟨rfl, rfl, rfl⟩

/-- Claim C19: whenever `Execute` succeeds and returns the order `o`, one event was
appended to the ledger and then published; its `OrderID`, `CustomerID`, `TotalCents`
and `CreatedAt` are those of `o`, its `CorrelationID` is the one given, its
`EventType` is "OrderCreated" and its `Version` "1.0"; `o` has the customer id and
total of the request, and the order id of the request when that is non-empty. -/
theorem Execute_success_event_content (tl : TimeLayouts) (env : CreateEnv) (s : WriteSide)
    (req : CreateOrderRequest) (c : String) (o : Order)
    (h : (CreateOrderUseCase.Execute tl env s req c).order = some o) :
    (CreateOrderUseCase.Execute tl env s req c).err = none ∧
    ∃ ev : Event,
      (CreateOrderUseCase.Execute tl env s req c).calls
        = [(.SaveEvent ev, none), (.PublishEvent ev, none)] ∧
      (CreateOrderUseCase.Execute tl env s req c).state.ledger
        = (ev.EventID, DynamoDBEventRepository.itemOf tl ev)
            :: s.ledger.filter (fun p => p.1 != ev.EventID) ∧
      (CreateOrderUseCase.Execute tl env s req c).state.bus
        = { Source := ev.Source, DetailType := ev.EventType
            Detail := ev.ToEventBridgeDetail tl } :: s.bus ∧
      ev.OrderID = o.ID ∧ ev.CustomerID = o.CustomerID ∧ ev.TotalCents = o.TotalCents ∧
      ev.CreatedAt = o.CreatedAt ∧ ev.CorrelationID = c ∧ ev.EventType = "OrderCreated" ∧
      ev.Version = "1.0" ∧
      o.CustomerID = req.CustomerID ∧ o.TotalCents = req.TotalCents ∧
      (req.OrderID ≠ "" → o.ID = req.OrderID) := by
  rcases Create_cases env s req with ⟨err, hN⟩ | ⟨o2, hN, ⟨msg, hs⟩ | ⟨hs, hl⟩ |
    ⟨hs, hl, msg, hp⟩ | ⟨hs, hl, hp⟩⟩
  · rw [Create_of_invalid tl env s req c _ err hN] at h
    simp at h
  · rw [Create_of_save_fault tl env s req c o2 msg hN hs] at h
    simp at h
  · rw [Create_of_conflict tl env s req c o2 hN hs hl] at h
    simp at h
  · rw [Create_of_publish_fault tl env s req c o2 msg hN hs hl hp] at h
    simp at h
  · rw [Create_of_success tl env s req c o2 hN hs hl hp] at h ⊢
    have ho : o2 = o := by simpa using h
    subst ho
    obtain ⟨-, ho, -⟩ := NewOrder_some _ _ _ _ o2 none hN
    refine ⟨rfl, NewOrderCreatedEvent tl env.eventUUID c o2, rfl, rfl, rfl, rfl, rfl, rfl, rfl,
      rfl, rfl, rfl, ?_, ?_, ?_⟩
    · rw [ho]
    · rw [ho]
    · intro hne
      rw [ho]
      simp [CreateOrderUseCase.resolveOrderID, hne]

theorem Execute_success_event_content_witness :
    (CreateOrderUseCase.Execute goTime sampleCreateEnv emptyWriteSide sampleRequest
      "corr-1").order = some ⟨"ord-1", "cust-1", 500, ⟨1704067200, 0, 0⟩⟩ ∧
    (CreateOrderUseCase.Execute goTime sampleCreateEnv emptyWriteSide sampleRequest
      "corr-1").err = none ∧
    (CreateOrderUseCase.Execute goTime sampleCreateEnv emptyWriteSide sampleRequest
      "corr-1").state.bus
      = [{ Source := "app.orders", DetailType := "OrderCreated"
           Detail := { EventID := "evt-1", CorrelationID := "corr-1", OrderID := "ord-1"
                       CustomerID := "cust-1", TotalCents := 500
                       CreatedAt := "2024-01-01T00:00:00Z", Version := "1.0" } }] :=
  ⟨rfl, (Execute_success_event_content goTime sampleCreateEnv emptyWriteSide sampleRequest
    "corr-1" ⟨"ord-1", "cust-1", 500, ⟨1704067200, 0, 0⟩⟩ rfl).1, rfl⟩

/-- Claim C11: for every request with an empty `OrderID`, a non-empty customer id and
`total_cents > 0`, with an identifier generator that returns a non-empty string and
a store and bus that do not fail (the fresh event id is not in the ledger),
`Execute` succeeds and returns an Order whose `ID` is the generated, non-empty
identifier and whose `CustomerID` and `TotalCents` are those of the request; and no
request with an empty `OrderID` ever ends in the `ErrInvalidOrderID` failure. -/
theorem Execute_generates_identity (tl : TimeLayouts) (env : CreateEnv) (s : WriteSide)
    (req : CreateOrderRequest) (c : String)
    (hempty : req.OrderID = "") (hcust : req.CustomerID ≠ "") (htotal : 0 < req.TotalCents)
    (hgen : env.orderUUID ≠ "")
    (hsave : env.saveEventFault = none) (hfresh : s.ledger.countKey env.eventUUID = 0)
    (hpub : env.publishFault = none) :
    (∃ o, (CreateOrderUseCase.Execute tl env s req c).order = some o ∧
      (CreateOrderUseCase.Execute tl env s req c).err = none ∧
      o.ID = env.orderUUID ∧ o.ID ≠ "" ∧ o.CustomerID = req.CustomerID ∧
      o.TotalCents = req.TotalCents) ∧
    (∀ (env2 : CreateEnv) (s2 : WriteSide) (req2 : CreateOrderRequest) (c2 : String)
        (retriable : Bool) (status : Int) (message : String),
      req2.OrderID = "" → env2.orderUUID ≠ "" →
      (CreateOrderUseCase.Execute tl env2 s2 req2 c2).err
        ≠ some (.appError .ErrInvalidOrderID retriable status message)) := by
  constructor
  · have hres : CreateOrderUseCase.resolveOrderID env req = env.orderUUID := by
      simp [CreateOrderUseCase.resolveOrderID, hempty]
    have hN := NewOrder_of_valid env.now (CreateOrderUseCase.resolveOrderID env req)
      req.CustomerID req.TotalCents (by rw [hres]; exact hgen) hcust htotal
    have hl := Table.lookup_eq_none_of_countKey s.ledger env.eventUUID hfresh
    rw [Create_of_success tl env s req c _ hN hsave hl hpub]
    exact ⟨_, rfl, rfl, hres, by rw [hres]; exact hgen, rfl, rfl⟩
  · intro env2 s2 req2 c2 retriable status message hempty2 hgen2
    have hres : CreateOrderUseCase.resolveOrderID env2 req2 ≠ "" := by
      simp [CreateOrderUseCase.resolveOrderID, hempty2, hgen2]
    rcases Create_cases env2 s2 req2 with ⟨err, hN⟩ | ⟨o2, hN, ⟨msg, hs⟩ | ⟨hs, hl⟩ |
      ⟨hs, hl, msg, hp⟩ | ⟨hs, hl, hp⟩⟩
    · rw [Create_of_invalid tl env2 s2 req2 c2 _ err hN]
      rcases (NewOrder_none _ _ _ _ _ err hN).2 with ⟨h0, -⟩ | ⟨-, -, he⟩ | ⟨-, -, -, he⟩
      · exact absurd h0 hres
      · simp [NewValidationError, he]
      · simp [NewValidationError, he]
    · rw [Create_of_save_fault tl env2 s2 req2 c2 o2 msg hN hs]
      simp [NewRetriableError]
    · rw [Create_of_conflict tl env2 s2 req2 c2 o2 hN hs hl]
      simp [NewNonRetriableError]
    · rw [Create_of_publish_fault tl env2 s2 req2 c2 o2 msg hN hs hl hp]
      simp [NewRetriableError]
    · rw [Create_of_success tl env2 s2 req2 c2 o2 hN hs hl hp]
      simp

theorem Execute_generates_identity_witness :
    ∃ o, (CreateOrderUseCase.Execute goTime sampleCreateEnv emptyWriteSide sampleRequest
        "corr-1").order = some o ∧
      (CreateOrderUseCase.Execute goTime sampleCreateEnv emptyWriteSide sampleRequest
        "corr-1").err = none ∧
      o.ID = sampleCreateEnv.orderUUID ∧ o.ID ≠ "" ∧ o.CustomerID = sampleRequest.CustomerID ∧
      o.TotalCents = sampleRequest.TotalCents :=
  (Execute_generates_identity goTime sampleCreateEnv emptyWriteSide sampleRequest "corr-1"
    rfl (by decide) (by decide) (by decide) rfl rfl rfl).1

/-- Claim C13: for every valid request for which `SaveEvent` succeeds and
`PublishEvent` fails, `Execute` calls `SaveEvent` exactly once, returns a nil Order
and a non-nil error that is retriable, and that error differs from the error of
every run in which `SaveEvent` itself returned an error. -/
theorem Execute_publish_failure_retriable (tl : TimeLayouts) (env : CreateEnv) (s : WriteSide)
    (req : CreateOrderRequest) (c : String) (msg : String)
    (hid : CreateOrderUseCase.resolveOrderID env req ≠ "") (hcust : req.CustomerID ≠ "")
    (htotal : 0 < req.TotalCents)
    (hsave : env.saveEventFault = none) (hfresh : s.ledger.countKey env.eventUUID = 0)
    (hpub : env.publishFault = some msg) :
    (CreateOrderUseCase.Execute tl env s req c).order = none ∧
    (∃ ev perr, (CreateOrderUseCase.Execute tl env s req c).calls
      = [(.SaveEvent ev, none), (.PublishEvent ev, some perr)]) ∧
    (∃ e, (CreateOrderUseCase.Execute tl env s req c).err = some e ∧ IsRetriable e = true ∧
      ∀ (env2 : CreateEnv) (s2 : WriteSide) (req2 : CreateOrderRequest) (c2 : String),
        (∃ ev serr, (Call.SaveEvent ev, some serr)
          ∈ (CreateOrderUseCase.Execute tl env2 s2 req2 c2).calls) →
        (CreateOrderUseCase.Execute tl env2 s2 req2 c2).err ≠ some e) := by
  have hN := NewOrder_of_valid env.now (CreateOrderUseCase.resolveOrderID env req)
    req.CustomerID req.TotalCents hid hcust htotal
  have hl := Table.lookup_eq_none_of_countKey s.ledger env.eventUUID hfresh
  rw [Create_of_publish_fault tl env s req c _ msg hN hsave hl hpub]
  refine ⟨rfl, ⟨_, _, rfl⟩, _, rfl, by simp [IsRetriable, asAppError, NewRetriableError], ?_⟩
  intro env2 s2 req2 c2 hmem
  rcases Create_cases env2 s2 req2 with ⟨err, hN2⟩ | ⟨o2, hN2, ⟨m2, hs2⟩ | ⟨hs2, hl2⟩ |
    ⟨hs2, hl2, m2, hp2⟩ | ⟨hs2, hl2, hp2⟩⟩
  · rw [Create_of_invalid tl env2 s2 req2 c2 _ err hN2]
    simp [NewValidationError, NewRetriableError]
  · rw [Create_of_save_fault tl env2 s2 req2 c2 o2 m2 hN2 hs2]
    simp [NewRetriableError]
  · rw [Create_of_conflict tl env2 s2 req2 c2 o2 hN2 hs2 hl2]
    simp [NewNonRetriableError, NewRetriableError]
  · rw [Create_of_publish_fault tl env2 s2 req2 c2 o2 m2 hN2 hs2 hl2 hp2] at hmem
    simp at hmem
  · rw [Create_of_success tl env2 s2 req2 c2 o2 hN2 hs2 hl2 hp2]
    simp

theorem Execute_publish_failure_retriable_witness :
    (CreateOrderUseCase.Execute goTime { sampleCreateEnv with publishFault := some "timeout" }
      emptyWriteSide sampleRequest "corr-1").order = none ∧
    (CreateOrderUseCase.Execute goTime { sampleCreateEnv with publishFault := some "timeout" }
      emptyWriteSide sampleRequest "corr-1").err
      = some (.appError (.wrapf "publish event" (.sdk "timeout")) true 500
          "failed to publish event") :=
  ⟨(Execute_publish_failure_retriable goTime
      { sampleCreateEnv with publishFault := some "timeout" } emptyWriteSide sampleRequest
      "corr-1" "timeout" (by decide) (by decide) (by decide) rfl rfl rfl).1, rfl⟩

/-- Claim C14: in every run of `Execute` the calls are none at all, or one
`SaveEvent` that returned an error, or one `SaveEvent` that returned nil followed by
one `PublishEvent` of the very same event.  `SaveEvent` is called only with the
event built from the Order that `NewOrder` validated; a validation failure leaves
ledger and bus untouched; and the bus only ever grows by the envelope of an event
whose record is then in the ledger. -/
theorem Execute_call_order (tl : TimeLayouts) (env : CreateEnv) (s : WriteSide)
    (req : CreateOrderRequest) (c : String) :
    ((CreateOrderUseCase.Execute tl env s req c).calls = [] ∨
      (∃ ev serr, (CreateOrderUseCase.Execute tl env s req c).calls
        = [(.SaveEvent ev, some serr)]) ∨
      (∃ ev perr, (CreateOrderUseCase.Execute tl env s req c).calls
        = [(.SaveEvent ev, none), (.PublishEvent ev, perr)])) ∧
    (∀ ev res, (Call.SaveEvent ev, res) ∈ (CreateOrderUseCase.Execute tl env s req c).calls →
      ∃ o, NewOrder env.now (CreateOrderUseCase.resolveOrderID env req) req.CustomerID
          req.TotalCents = (some o, none) ∧
        ev = NewOrderCreatedEvent tl env.eventUUID c o) ∧
    (∀ ev res, (Call.PublishEvent ev, res) ∈ (CreateOrderUseCase.Execute tl env s req c).calls →
      (Call.SaveEvent ev, none) ∈ (CreateOrderUseCase.Execute tl env s req c).calls ∧
      List.lookup ev.EventID (CreateOrderUseCase.Execute tl env s req c).state.ledger
        = some (DynamoDBEventRepository.itemOf tl ev)) ∧
    ((NewOrder env.now (CreateOrderUseCase.resolveOrderID env req) req.CustomerID
        req.TotalCents).2 ≠ none →
      (CreateOrderUseCase.Execute tl env s req c).calls = [] ∧
      (CreateOrderUseCase.Execute tl env s req c).state = s) ∧
    ((CreateOrderUseCase.Execute tl env s req c).state.bus = s.bus ∨
      ∃ ev, (Call.PublishEvent ev, none) ∈ (CreateOrderUseCase.Execute tl env s req c).calls ∧
        (CreateOrderUseCase.Execute tl env s req c).state.bus
          = { Source := ev.Source, DetailType := ev.EventType
              Detail := ev.ToEventBridgeDetail tl } :: s.bus ∧
        List.lookup ev.EventID (CreateOrderUseCase.Execute tl env s req c).state.ledger
          = some (DynamoDBEventRepository.itemOf tl ev)) := by
  rcases Create_cases env s req with ⟨err, hN⟩ | ⟨o, hN, ⟨msg, hs⟩ | ⟨hs, hl⟩ |
    ⟨hs, hl, msg, hp⟩ | ⟨hs, hl, hp⟩⟩
  · rw [Create_of_invalid tl env s req c _ err hN]
    simp
  · rw [Create_of_save_fault tl env s req c o msg hN hs]
    simp [hN]
  · rw [Create_of_conflict tl env s req c o hN hs hl]
    simp [hN]
  · rw [Create_of_publish_fault tl env s req c o msg hN hs hl hp]
    simp [hN, NewOrderCreatedEvent]
  · rw [Create_of_success tl env s req c o hN hs hl hp]
    simp [hN, NewOrderCreatedEvent]

/-- Claim C15: every non-nil error `Execute` returns is an `AppError`, and the pair
`(IsRetriable, HTTPStatus)` alone tells its kind: the pair is `(false, 400)` exactly
for a validation failure, `(false, 500)` exactly for a conflict reported by
`SaveEvent`, and `(true, 500)` exactly for an infrastructure failure (a `SaveEvent`
or `PublishEvent` error other than the conflict). -/
theorem Execute_error_classification (tl : TimeLayouts) (env : CreateEnv) (s : WriteSide)
    (req : CreateOrderRequest) (c : String) (e : GoError)
    (h : (CreateOrderUseCase.Execute tl env s req c).err = some e) :
    (∃ cause retriable status message, e = .appError cause retriable status message) ∧
    ((IsRetriable e, HTTPStatus e) = (false, 400) ↔
      (NewOrder env.now (CreateOrderUseCase.resolveOrderID env req) req.CustomerID
        req.TotalCents).2 ≠ none) ∧
    ((IsRetriable e, HTTPStatus e) = (false, 500) ↔
      ∃ ev, (Call.SaveEvent ev, some .ErrOrderAlreadyExists)
        ∈ (CreateOrderUseCase.Execute tl env s req c).calls) ∧
    ((IsRetriable e, HTTPStatus e) = (true, 500) ↔
      ∃ call cause, (call, some cause) ∈ (CreateOrderUseCase.Execute tl env s req c).calls ∧
        cause ≠ .ErrOrderAlreadyExists) := by
  rcases Create_cases env s req with ⟨err, hN⟩ | ⟨o, hN, ⟨msg, hs⟩ | ⟨hs, hl⟩ |
    ⟨hs, hl, msg, hp⟩ | ⟨hs, hl, hp⟩⟩
  · rw [Create_of_invalid tl env s req c _ err hN] at h ⊢
    simp at h
    subst h
    simp [hN, NewValidationError, IsRetriable, HTTPStatus, asAppError]
  · rw [Create_of_save_fault tl env s req c o msg hN hs] at h ⊢
    simp at h
    subst h
    simp [hN, NewRetriableError, IsRetriable, HTTPStatus, asAppError]
    exact ⟨_, _, ⟨rfl, rfl⟩, by simp⟩
  · rw [Create_of_conflict tl env s req c o hN hs hl] at h ⊢
    simp at h
    subst h
    simp [hN, NewNonRetriableError, IsRetriable, HTTPStatus, asAppError]
  · rw [Create_of_publish_fault tl env s req c o msg hN hs hl hp] at h ⊢
    simp at h
    subst h
    simp [hN, NewRetriableError, IsRetriable, HTTPStatus, asAppError]
    exact ⟨_, _, ⟨rfl, rfl⟩, by simp⟩
  · rw [Create_of_success tl env s req c o hN hs hl hp] at h
    simp at h

theorem Execute_error_classification_witness :
    (CreateOrderUseCase.Execute goTime sampleCreateEnv emptyWriteSide
      { sampleRequest with TotalCents := 0 } "corr-1").err
      = some (NewValidationError .ErrInvalidTotal
          "invalid order: invalid total: must be greater than 0") ∧
    (IsRetriable (NewValidationError .ErrInvalidTotal
        "invalid order: invalid total: must be greater than 0"),
      HTTPStatus (NewValidationError .ErrInvalidTotal
        "invalid order: invalid total: must be greater than 0")) = (false, 400) :=
  ⟨rfl, ((Execute_error_classification goTime sampleCreateEnv emptyWriteSide
      { sampleRequest with TotalCents := 0 } "corr-1" _ rfl).2.1).mpr (by decide)⟩

theorem CommandHandler_of_error (tl : TimeLayouts) (env : CommandEnv) (s : WriteSide)
    (hreq : APIGatewayV2HTTPRequest) (req : CreateOrderRequest) (cause : GoError)
    (retriable : Bool) (status : Int) (message : String)
    (hbody : hreq.Body = .decoded req)
    (h : (CreateOrderUseCase.Execute tl env.create s req
      (CommandHandler.correlationID env hreq)).err
        = some (.appError cause retriable status message)) :
    CommandHandler.handler tl env s hreq
      = { response := some
            { StatusCode := status
              Body := .error (GoError.appError cause retriable status message).Error
              Headers := [("X-Correlation-Id", CommandHandler.correlationID env hreq)] }
          state := (CreateOrderUseCase.Execute tl env.create s req
            (CommandHandler.correlationID env hreq)).state } := by
  obtain ⟨oid, cust, total⟩ := req
  simp only [CommandHandler.correlationID] at h
  simp [CommandHandler.handler, CommandHandler.correlationID, hbody, h]

theorem SaveEvent_conflict (tl : TimeLayouts) (fault : Option String)
    (ledger : Table EventItem) (ev : Event)
    (h : (DynamoDBEventRepository.SaveEvent tl fault ledger ev).2
      = some .ErrOrderAlreadyExists) :
    fault = none ∧ (List.lookup ev.EventID ledger).isSome = true := by
  cases fault with
  | some msg => simp [DynamoDBEventRepository.SaveEvent, PutItem] at h
  | none =>
    cases hl : List.lookup ev.EventID ledger with
    | some old => simp
    | none => simp [DynamoDBEventRepository.SaveEvent, PutItem, hl] at h

/-- Claim C12, as amended: for every valid request, when `SaveEvent` reports
`ErrOrderAlreadyExists`, `Execute` returns a nil Order and the terminal error
"order already exists" wrapping `ErrOrderAlreadyExists`; that error is not
retriable and carries status 500, `PublishEvent` is not called, ledger and bus
are unchanged, and the command handler answers with status 500. -/
theorem Execute_conflict_terminal (tl : TimeLayouts) (env : CommandEnv) (s : WriteSide)
    (hreq : APIGatewayV2HTTPRequest) (req : CreateOrderRequest) (c : String) (o : Order)
    (hbody : hreq.Body = .decoded req)
    (hvalid : NewOrder env.create.now (CreateOrderUseCase.resolveOrderID env.create req)
      req.CustomerID req.TotalCents = (some o, none))
    (hconflict : (DynamoDBEventRepository.SaveEvent tl env.create.saveEventFault s.ledger
      (NewOrderCreatedEvent tl env.create.eventUUID c o)).2 = some .ErrOrderAlreadyExists) :
    (CreateOrderUseCase.Execute tl env.create s req c).order = none ∧
    (CreateOrderUseCase.Execute tl env.create s req c).err
      = some (NewNonRetriableError .ErrOrderAlreadyExists "order already exists") ∧
    IsRetriable (NewNonRetriableError .ErrOrderAlreadyExists "order already exists") = false ∧
    HTTPStatus (NewNonRetriableError .ErrOrderAlreadyExists "order already exists") = 500 ∧
    (∀ call ∈ (CreateOrderUseCase.Execute tl env.create s req c).calls,
      ∀ ev, call.1 ≠ .PublishEvent ev) ∧
    (CreateOrderUseCase.Execute tl env.create s req c).state = s ∧
    CommandHandler.handler tl env s hreq
      = { response := some
            { StatusCode := 500, Body := .error "order already exists"
              Headers := [("X-Correlation-Id", CommandHandler.correlationID env hreq)] }
          state := s } := by
  obtain ⟨hs, hl⟩ := SaveEvent_conflict tl _ _ _ hconflict
  have hconf : ∀ c2, CreateOrderUseCase.Execute tl env.create s req c2 = _ :=
    fun c2 => Create_of_conflict tl env.create s req c2 o hvalid hs hl
  have hhandler := CommandHandler_of_error tl env s hreq req .ErrOrderAlreadyExists false 500
    "order already exists" hbody (by rw [hconf]; rfl)
  rw [hhandler, hconf, hconf]
  refine ⟨rfl, rfl, rfl, rfl, ?_, rfl, ?_⟩
  · simp
  · simp [GoError.Error]

theorem Execute_conflict_terminal_witness :
    (DynamoDBEventRepository.SaveEvent goTime sampleCreateEnv.saveEventFault
      createdWriteSide.ledger (NewOrderCreatedEvent goTime sampleCreateEnv.eventUUID "corr-2"
        ⟨"ord-1", "cust-1", 500, ⟨1704067200, 0, 0⟩⟩)).2 = some .ErrOrderAlreadyExists ∧
    (CreateOrderUseCase.Execute goTime sampleCreateEnv createdWriteSide resubmittedRequest
      "corr-2").err
      = some (NewNonRetriableError .ErrOrderAlreadyExists "order already exists") ∧
    (CreateOrderUseCase.Execute goTime sampleCreateEnv createdWriteSide resubmittedRequest
      "corr-2").state = createdWriteSide :=
  ⟨rfl,
   (Execute_conflict_terminal goTime ⟨"corr-2", sampleCreateEnv⟩ createdWriteSide
      ⟨[], .decoded resubmittedRequest⟩ resubmittedRequest "corr-2"
      ⟨"ord-1", "cust-1", 500, ⟨1704067200, 0, 0⟩⟩ rfl rfl rfl).2.1,
   (Execute_conflict_terminal goTime ⟨"corr-2", sampleCreateEnv⟩ createdWriteSide
      ⟨[], .decoded resubmittedRequest⟩ resubmittedRequest "corr-2"
      ⟨"ord-1", "cust-1", 500, ⟨1704067200, 0, 0⟩⟩ rfl rfl rfl).2.2.2.2.2.1⟩

/-- Claim C12 as stated fails: a valid command whose event id is already in the
ledger makes `SaveEvent` report `ErrOrderAlreadyExists`, and then the error result
of `Execute` is not nil and the command handler answers with status 500. -/
theorem Execute_conflict_is_reported_as_error :
    (Call.SaveEvent (NewOrderCreatedEvent goTime "evt-1" "corr-2"
        ⟨"ord-1", "cust-1", 500, ⟨1704067200, 0, 0⟩⟩), some GoError.ErrOrderAlreadyExists)
      ∈ (CreateOrderUseCase.Execute goTime sampleCreateEnv createdWriteSide resubmittedRequest
          "corr-2").calls ∧
    (CreateOrderUseCase.Execute goTime sampleCreateEnv createdWriteSide resubmittedRequest
      "corr-2").err ≠ none ∧
    (CommandHandler.handler goTime ⟨"corr-2", sampleCreateEnv⟩ createdWriteSide
      ⟨[], .decoded resubmittedRequest⟩).response.map (fun r => r.StatusCode) = some 500 := by
  refine ⟨?_, ?_, ?_⟩
  · have h : (CreateOrderUseCase.Execute goTime sampleCreateEnv createdWriteSide
        resubmittedRequest "corr-2").calls
        = [(Call.SaveEvent (NewOrderCreatedEvent goTime "evt-1" "corr-2"
            ⟨"ord-1", "cust-1", 500, ⟨1704067200, 0, 0⟩⟩),
            some GoError.ErrOrderAlreadyExists)] := rfl
    rw [h]
    exact List.mem_singleton.mpr rfl
  · have h : (CreateOrderUseCase.Execute goTime sampleCreateEnv createdWriteSide
        resubmittedRequest "corr-2").err
        = some (NewNonRetriableError .ErrOrderAlreadyExists "order already exists") := rfl
    rw [h]
    exact Option.some_ne_none _
  · rfl

/-- Claim C16: the status the command handler returns for a validation failure is
400 and the status it returns for a conflict is 500; neither is a 2xx status and
the two differ. -/
theorem CommandHandler_status_mapping (tl : TimeLayouts) (envA envB : CommandEnv)
    (sA sB : WriteSide) (hreqA hreqB : APIGatewayV2HTTPRequest)
    (reqA reqB : CreateOrderRequest) (o : Order)
    (hbodyA : hreqA.Body = .decoded reqA) (hbodyB : hreqB.Body = .decoded reqB)
    (hinvalid : (NewOrder envA.create.now (CreateOrderUseCase.resolveOrderID envA.create reqA)
      reqA.CustomerID reqA.TotalCents).2 ≠ none)
    (hvalid : NewOrder envB.create.now (CreateOrderUseCase.resolveOrderID envB.create reqB)
      reqB.CustomerID reqB.TotalCents = (some o, none))
    (hconflict : (DynamoDBEventRepository.SaveEvent tl envB.create.saveEventFault sB.ledger
      (NewOrderCreatedEvent tl envB.create.eventUUID (CommandHandler.correlationID envB hreqB)
        o)).2 = some .ErrOrderAlreadyExists) :
    ∃ ra rb, (CommandHandler.handler tl envA sA hreqA).response = some ra ∧
      (CommandHandler.handler tl envB sB hreqB).response = some rb ∧
      ra.StatusCode = 400 ∧ rb.StatusCode = 500 ∧
      ¬ (200 ≤ ra.StatusCode ∧ ra.StatusCode < 300) ∧
      ¬ (200 ≤ rb.StatusCode ∧ rb.StatusCode < 300) ∧
      ra.StatusCode ≠ rb.StatusCode := by
  obtain ⟨hs, hl⟩ := SaveEvent_conflict tl _ _ _ hconflict
  have hB := CommandHandler_of_error tl envB sB hreqB reqB .ErrOrderAlreadyExists false 500
    "order already exists" hbodyB
    (by rw [Create_of_conflict tl envB.create sB reqB _ o hvalid hs hl]; rfl)
  cases hN : NewOrder envA.create.now (CreateOrderUseCase.resolveOrderID envA.create reqA)
      reqA.CustomerID reqA.TotalCents with
  | mk oA eA =>
    cases eA with
    | none => rw [hN] at hinvalid; exact absurd rfl hinvalid
    | some err =>
      have hA := CommandHandler_of_error tl envA sA hreqA reqA err false 400
        ("invalid order: " ++ err.Error) hbodyA
        (by rw [Create_of_invalid tl envA.create sA reqA _ oA err hN]; rfl)
      rw [hA, hB]
      exact ⟨_, _, rfl, rfl, rfl, rfl, by simp, by simp, by simp⟩

theorem CommandHandler_status_mapping_witness :
    ∃ ra rb,
      (CommandHandler.handler goTime ⟨"corr-1", sampleCreateEnv⟩ emptyWriteSide
        ⟨[], .decoded { sampleRequest with TotalCents := 0 }⟩).response = some ra ∧
      (CommandHandler.handler goTime ⟨"corr-2", sampleCreateEnv⟩ createdWriteSide
        ⟨[], .decoded resubmittedRequest⟩).response = some rb ∧
      ra.StatusCode = 400 ∧ rb.StatusCode = 500 ∧
      ¬ (200 ≤ ra.StatusCode ∧ ra.StatusCode < 300) ∧
      ¬ (200 ≤ rb.StatusCode ∧ rb.StatusCode < 300) ∧
      ra.StatusCode ≠ rb.StatusCode :=
  CommandHandler_status_mapping goTime ⟨"corr-1", sampleCreateEnv⟩ ⟨"corr-2", sampleCreateEnv⟩
    emptyWriteSide createdWriteSide ⟨[], .decoded { sampleRequest with TotalCents := 0 }⟩
    ⟨[], .decoded resubmittedRequest⟩ { sampleRequest with TotalCents := 0 } resubmittedRequest
    ⟨"ord-1", "cust-1", 500, ⟨1704067200, 0, 0⟩⟩ rfl rfl (by decide) rfl rfl

/-- Claim C4, evaluated at a resubmission: a command without order id succeeds and
returns the generated identity `ord-1`; the same payload resubmitted with
`OrderID = "ord-1"` draws a fresh event id, so `SaveEvent` finds no record under
it: the second `Execute` returns the order and a nil error instead of the conflict,
a second event for `ord-1` is committed to the ledger, and it is published. -/
theorem Execute_resubmission_commits_second_event :
    (CreateOrderUseCase.Execute goTime ⟨"ord-1", "evt-1", ⟨1704067200, 0, 0⟩, none, none⟩
      ⟨[], []⟩ ⟨"", "cust-1", 500⟩ "corr-1").err = none ∧
    (CreateOrderUseCase.Execute goTime ⟨"ord-1", "evt-1", ⟨1704067200, 0, 0⟩, none, none⟩
      ⟨[], []⟩ ⟨"", "cust-1", 500⟩ "corr-1").order
      = some ⟨"ord-1", "cust-1", 500, ⟨1704067200, 0, 0⟩⟩ ∧
    (CreateOrderUseCase.Execute goTime ⟨"ord-2", "evt-2", ⟨1704067260, 0, 0⟩, none, none⟩
      (CreateOrderUseCase.Execute goTime ⟨"ord-1", "evt-1", ⟨1704067200, 0, 0⟩, none, none⟩
        ⟨[], []⟩ ⟨"", "cust-1", 500⟩ "corr-1").state
      ⟨"ord-1", "cust-1", 500⟩ "corr-2").err = none ∧
    (CreateOrderUseCase.Execute goTime ⟨"ord-2", "evt-2", ⟨1704067260, 0, 0⟩, none, none⟩
      (CreateOrderUseCase.Execute goTime ⟨"ord-1", "evt-1", ⟨1704067200, 0, 0⟩, none, none⟩
        ⟨[], []⟩ ⟨"", "cust-1", 500⟩ "corr-1").state
      ⟨"ord-1", "cust-1", 500⟩ "corr-2").order
      = some ⟨"ord-1", "cust-1", 500, ⟨1704067260, 0, 0⟩⟩ ∧
    (CreateOrderUseCase.Execute goTime ⟨"ord-2", "evt-2", ⟨1704067260, 0, 0⟩, none, none⟩
      (CreateOrderUseCase.Execute goTime ⟨"ord-1", "evt-1", ⟨1704067200, 0, 0⟩, none, none⟩
        ⟨[], []⟩ ⟨"", "cust-1", 500⟩ "corr-1").state
      ⟨"ord-1", "cust-1", 500⟩ "corr-2").state.ledger.map (fun p => (p.1, p.2.OrderID))
      = [("evt-2", "ord-1"), ("evt-1", "ord-1")] ∧
    (CreateOrderUseCase.Execute goTime ⟨"ord-2", "evt-2", ⟨1704067260, 0, 0⟩, none, none⟩
      (CreateOrderUseCase.Execute goTime ⟨"ord-1", "evt-1", ⟨1704067200, 0, 0⟩, none, none⟩
        ⟨[], []⟩ ⟨"", "cust-1", 500⟩ "corr-1").state
      ⟨"ord-1", "cust-1", 500⟩ "corr-2").state.bus.map (fun entry => entry.Detail.EventID)
      = ["evt-2", "evt-1"] := by
  refine ⟨?_, ?_, ?_, ?_, ?_, ?_⟩ <;> rfl

/-! ## Projection handler -/

theorem ProjectionHandler_decoded (tl : TimeLayouts) (env : ApplyEnv) (s : ReadSide)
    (source detailType : String) (d : OrderCreatedEventDetail) :
    ((ProjectionHandler.handler tl env s ⟨source, detailType, .decoded d⟩).1 ≠ none ↔
      ∃ e, (ApplyOrderCreatedUseCase.Execute tl 90 env s d).err = some e ∧
        IsRetriable e = true) := by
  simp only [ProjectionHandler.handler]
  cases h : (ApplyOrderCreatedUseCase.Execute tl 90 env s d).err with
  | none => simp
  | some e => by_cases hr : IsRetriable e = true <;> simp [hr]

/-- Claim C17, evaluated on an event detail that does not decode: the projection
handler returns the error "failed to unmarshal event detail" to the runtime, so the
delivery is not acknowledged, although that error is not retriable. -/
theorem ProjectionHandler_undecodable_not_acknowledged (tl : TimeLayouts) (env : ApplyEnv)
    (s : ReadSide) (source detailType msg : String) :
    ProjectionHandler.handler tl env s ⟨source, detailType, .undecodable msg⟩
      = (some (.wrapf "failed to unmarshal event detail" (.sdk msg)), s) ∧
    IsRetriable (.wrapf "failed to unmarshal event detail" (.sdk msg)) = false :=
  ⟨rfl, rfl⟩

/-! ## Order validity -/

/-- Claim C18 as stated fails: an inbound event with an empty customer id and a
total of zero is turned into an Order with exactly those fields, handed to
`SaveOrder` and written to the read model. -/
theorem Execute_saves_invalid_order :
    (ApplyOrderCreatedUseCase.Execute goTime 90 (ApplyEnv.healthy ⟨1704067205, 0, 0⟩)
      emptyReadSide invalidDetail).calls
      = [(.IsProcessed "e1", none), (.SaveOrder ⟨"o1", "", 0, ⟨1704067200, 0, 0⟩⟩, none),
         (.MarkAsProcessed "e1", none)] ∧
    (ApplyOrderCreatedUseCase.Execute goTime 90 (ApplyEnv.healthy ⟨1704067205, 0, 0⟩)
      emptyReadSide invalidDetail).state.orders
      = [("o1", { OrderID := "o1", CustomerID := "", TotalCents := 0
                  CreatedAt := "2024-01-01T00:00:00Z" })] :=
  ⟨rfl, rfl⟩

/-- Claim C18, as amended: every Order returned by `NewOrder` or by
`CreateOrderUseCase.Execute` has a non-empty `ID`, a non-empty `CustomerID` and
`TotalCents > 0`; the Order that `ApplyOrderCreatedUseCase.Execute` passes to
`SaveOrder` carries the order id, customer id and total of the inbound event
unchanged, so it is valid exactly when those three fields of the event are. -/
theorem Order_validity (tl : TimeLayouts) :
    (∀ (now : Time) (id : OrderID) (customerID : CustomerID) (totalCents : Int) (o : Order)
        (e : Option GoError),
      NewOrder now id customerID totalCents = (some o, e) →
      o.ID ≠ "" ∧ o.CustomerID ≠ "" ∧ 0 < o.TotalCents) ∧
    (∀ (env : CreateEnv) (s : WriteSide) (req : CreateOrderRequest) (c : String) (o : Order),
      (CreateOrderUseCase.Execute tl env s req c).order = some o →
      o.ID ≠ "" ∧ o.CustomerID ≠ "" ∧ 0 < o.TotalCents) ∧
    (∀ (ttlDays : Int) (env : ApplyEnv) (s : ReadSide) (d : OrderCreatedEventDetail)
        (o : Order) (res : Option GoError),
      (Call.SaveOrder o, res) ∈ (ApplyOrderCreatedUseCase.Execute tl ttlDays env s d).calls →
      o.ID = d.OrderID ∧ o.CustomerID = d.CustomerID ∧ o.TotalCents = d.TotalCents ∧
      ((o.ID ≠ "" ∧ o.CustomerID ≠ "" ∧ 0 < o.TotalCents) ↔
        (d.OrderID ≠ "" ∧ d.CustomerID ≠ "" ∧ 0 < d.TotalCents))) := by
  have hfactory : ∀ (now : Time) (id : OrderID) (customerID : CustomerID) (totalCents : Int)
      (o : Order) (e : Option GoError),
      NewOrder now id customerID totalCents = (some o, e) →
      o.ID ≠ "" ∧ o.CustomerID ≠ "" ∧ 0 < o.TotalCents := by
    intro now id customerID totalCents o e h
    obtain ⟨-, ho, hid, hcust, htotal⟩ := NewOrder_some now id customerID totalCents o e h
    subst ho
    exact ⟨hid, hcust, htotal⟩
  refine ⟨hfactory, ?_, ?_⟩
  · intro env s req c o h
    rcases Create_cases env s req with ⟨err, hN⟩ | ⟨o2, hN, ⟨msg, hs⟩ | ⟨hs, hl⟩ |
      ⟨hs, hl, msg, hp⟩ | ⟨hs, hl, hp⟩⟩
    · rw [Create_of_invalid tl env s req c _ err hN] at h
      simp at h
    · rw [Create_of_save_fault tl env s req c o2 msg hN hs] at h
      simp at h
    · rw [Create_of_conflict tl env s req c o2 hN hs hl] at h
      simp at h
    · rw [Create_of_publish_fault tl env s req c o2 msg hN hs hl hp] at h
      simp at h
    · rw [Create_of_success tl env s req c o2 hN hs hl hp] at h
      have ho : o2 = o := by simpa using h
      subst ho
      exact hfactory _ _ _ _ o2 none hN
  · intro ttlDays env s d o res hmem
    have hfields : o.ID = d.OrderID ∧ o.CustomerID = d.CustomerID ∧
        o.TotalCents = d.TotalCents := by
      obtain ⟨now, f1, f2, f3⟩ := env
      cases f1 <;> cases f2 <;> cases f3 <;> cases hp : tl.ParseRFC3339 d.CreatedAt <;>
        cases hl : List.lookup d.EventID s.processed <;>
        simp [ApplyOrderCreatedUseCase.Execute, DynamoDBProcessedEventsRepository.IsProcessed,
          DynamoDBProcessedEventsRepository.MarkAsProcessed,
          DynamoDBReadModelRepository.SaveOrder, GetItem, PutItem, hp, hl] at hmem <;>
        simp [hmem.1]
    obtain ⟨h1, h2, h3⟩ := hfields
    exact ⟨h1, h2, h3, by rw [h1, h2, h3]⟩

/-! ## Log redaction -/

theorem sanitizeFields_some (m : Fields) :
    sanitizeFields (some m)
      = some (m.foldl (fun acc kv => Fields.set acc kv.1 (redactedValue kv.1 kv.2)) []) := by
  simp only [sanitizeFields]
  congr 2
  funext sanitized kv
  by_cases h : kv.1 = "payload" ∨ kv.1 = "body" ∨ kv.1 = "data"
  · simp only [redactedValue, h, if_true]
  · simp only [redactedValue, h, if_false]
    cases hv : kv.2 with
    | string str => by_cases hlen : str.length > 500 <;> simp [hlen]
    | other ty text => rfl

theorem Fields.set_absent (m : Fields) (k : String) (v : FieldValue)
    (h : List.lookup k m = none) : Fields.set m k v = m ++ [(k, v)] := by
  simp [Fields.set, h]

theorem foldl_set_fresh (m acc : Fields) (hmap : (m.map Prod.fst).Nodup)
    (hfresh : ∀ p ∈ m, List.lookup p.1 acc = none) :
    m.foldl (fun acc kv => Fields.set acc kv.1 (redactedValue kv.1 kv.2)) acc
      = acc ++ m.map (fun p => (p.1, redactedValue p.1 p.2)) := by
  induction m generalizing acc with
  | nil => simp
  | cons p rest ih =>
    have hnodup : (rest.map Prod.fst).Nodup := (List.nodup_cons.mp hmap).2
    have hnotin : p.1 ∉ rest.map Prod.fst := (List.nodup_cons.mp hmap).1
    have hp : List.lookup p.1 acc = none := hfresh p (List.mem_cons_self _ _)
    simp only [List.foldl_cons, Fields.set_absent acc p.1 _ hp]
    rw [ih _ hnodup]
    · simp
    · intro q hq
      have hne : q.1 ≠ p.1 := fun h => hnotin (h ▸ List.mem_map_of_mem Prod.fst hq)
      have hbeq : (q.1 == p.1) = false := by simpa using hne
      rw [List.lookup_append, hfresh q (List.mem_cons_of_mem _ hq)]
      simp [List.lookup_cons, hbeq]

theorem sanitizeFields_eq_map (m : Fields) (hmap : (m.map Prod.fst).Nodup) :
    sanitizeFields (some m) = some (m.map (fun p => (p.1, redactedValue p.1 p.2))) := by
  rw [sanitizeFields_some, foldl_set_fresh m [] hmap (fun _ _ => rfl)]
  simp

theorem lookup_map_redacted (m : Fields) (k : String) :
    List.lookup k (m.map (fun p => (p.1, redactedValue p.1 p.2)))
      = (List.lookup k m).map (redactedValue k) := by
  induction m with
  | nil => rfl
  | cons p rest ih =>
    obtain ⟨k2, v⟩ := p
    by_cases hk : k = k2
    · subst hk
      simp [List.lookup_cons]
    · have hbeq : (k == k2) = false := by simpa using hk
      simp [List.lookup_cons, hbeq, ih]

theorem redactedValue_idem (k : String) (v : FieldValue) :
    redactedValue k (redactedValue k v) = redactedValue k v := by
  by_cases h : k = "payload" ∨ k = "body" ∨ k = "data"
  · simp [redactedValue, h]
  · cases v with
    | other ty text => simp [redactedValue, h]
    | string str =>
      by_cases hlen : str.length > 500
      · have htake : (str.take 500).length = 500 := by
          rw [List.length_take]; omega
        have hlong : (str.take 500 ++ goBytes "...").length > 500 := by
          rw [List.length_append, htake]
          have : (goBytes "...").length = 3 := by decide
          omega
        simp only [redactedValue, h, if_false, hlen, if_true, hlong,
          List.take_left' htake]
      · simp [redactedValue, h, hlen]

theorem redacted_entry_fixed (p : String × FieldValue) :
    (fun q : String × FieldValue => (q.1, redactedValue q.1 q.2)) (p.1, redactedValue p.1 p.2)
      = (p.1, redactedValue p.1 p.2) := by
  simp [redactedValue_idem]

theorem map_redacted_keys (m : Fields) :
    (m.map (fun p => (p.1, redactedValue p.1 p.2))).map Prod.fst = m.map Prod.fst := by
  simp [List.map_map, Function.comp_def]

/-- Claim C21: for every non-nil field map `m` (each key held once),
`sanitizeFields(m)` is a non-nil map with exactly the keys of `m`; under each of the
keys "payload", "body" and "data" it holds the constant "[REDACTED]" whatever `m`
held there, so two maps that differ only under those keys have the same sanitized
entries; under any other key a `string` longer than 500 bytes becomes its first 500
bytes followed by "...", and every other value is kept; and sanitizing the result
again, in whatever order its entries are visited, gives the same map. -/
theorem sanitizeFields_redaction (m : Fields) (hmap : (m.map Prod.fst).Nodup) :
    ∃ out, sanitizeFields (some m) = some out ∧
      out.map Prod.fst = m.map Prod.fst ∧
      (∀ k v, List.lookup k m = some v → (k = "payload" ∨ k = "body" ∨ k = "data") →
        List.lookup k out = some (.string (goBytes "[REDACTED]"))) ∧
      (∀ m2 : Fields, (m2.map Prod.fst).Nodup →
        (∀ k, (List.lookup k m2).isSome = (List.lookup k m).isSome) →
        (∀ k, ¬ (k = "payload" ∨ k = "body" ∨ k = "data") →
          List.lookup k m2 = List.lookup k m) →
        ∃ out2, sanitizeFields (some m2) = some out2 ∧
          ∀ k, List.lookup k out2 = List.lookup k out) ∧
      (∀ k str, List.lookup k m = some (.string str) →
        ¬ (k = "payload" ∨ k = "body" ∨ k = "data") → 500 < str.length →
        List.lookup k out = some (.string (str.take 500 ++ goBytes "..."))) ∧
      (∀ k v, List.lookup k m = some v → ¬ (k = "payload" ∨ k = "body" ∨ k = "data") →
        (∀ str, v = .string str → str.length ≤ 500) → List.lookup k out = some v) ∧
      sanitizeFields (sanitizeFields (some m)) = sanitizeFields (some m) ∧
      (∀ m2 : Fields, m2.Perm out → sanitizeFields (some m2) = some m2) := by
  have hfixed : ∀ m2 : Fields, m2.Perm (m.map (fun p => (p.1, redactedValue p.1 p.2))) →
      sanitizeFields (some m2) = some m2 := by
    intro m2 hperm
    have hkeys : (m2.map Prod.fst).Nodup := by
      rw [(hperm.map Prod.fst).nodup_iff, map_redacted_keys]
      exact hmap
    rw [sanitizeFields_eq_map m2 hkeys]
    have hfix : ∀ p ∈ m2, (fun q : String × FieldValue => (q.1, redactedValue q.1 q.2)) p
        = id p := by
      intro p hp
      obtain ⟨q, -, hq⟩ := List.mem_map.mp (hperm.mem_iff.mp hp)
      rw [← hq]
      exact redacted_entry_fixed q
    rw [List.map_congr_left hfix, List.map_id]
  refine ⟨_, sanitizeFields_eq_map m hmap, map_redacted_keys m, ?_, ?_, ?_, ?_, ?_, hfixed⟩
  · intro k v hlook hk
    rw [lookup_map_redacted, hlook]
    simp [redactedValue, hk]
  · intro m2 hmap2 hkeys hsame
    refine ⟨_, sanitizeFields_eq_map m2 hmap2, ?_⟩
    intro k
    rw [lookup_map_redacted, lookup_map_redacted]
    by_cases hk : k = "payload" ∨ k = "body" ∨ k = "data"
    · have h := hkeys k
      cases h2 : List.lookup k m2 <;> cases h1 : List.lookup k m <;>
        simp [h1, h2, redactedValue, hk] at h ⊢
    · rw [hsame k hk]
  · intro k str hlook hk hlen
    rw [lookup_map_redacted, hlook]
    simp [redactedValue, hk, hlen]
  · intro k v hlook hk hshort
    rw [lookup_map_redacted, hlook]
    cases v with
    | other ty text => simp [redactedValue, hk]
    | string str =>
      have hle : ¬ str.length > 500 := not_lt.mpr (hshort str rfl)
      simp [redactedValue, hk, hle]
  · rw [sanitizeFields_eq_map m hmap]
    exact hfixed _ (List.Perm.refl _)

set_option maxRecDepth 20000 in
theorem sanitizeFields_redaction_witness :
    (sampleFields.map Prod.fst).Nodup ∧
    sanitizeFields (some sampleFields)
      = some [("body", .string (goBytes "[REDACTED]")),
              ("error", .string (List.replicate 500 120 ++ goBytes "...")),
              ("order_id", .other "domain.OrderID" "ord-1")] ∧
    sanitizeFields (sanitizeFields (some sampleFields)) = sanitizeFields (some sampleFields) :=
  ⟨by decide, rfl,
    (sanitizeFields_redaction sampleFields (by decide)).choose_spec.2.2.2.2.2.2.1⟩

/-! ## Order factory -/

/-- Claim C9: for every non-empty order id, every non-empty customer id and every
`totalCents > 0`, `NewOrder` returns no error and a non-nil Order whose `ID`,
`CustomerID` and `TotalCents` are exactly the arguments; its identity is non-empty. -/
theorem NewOrder_valid (now : Time) (id : OrderID) (customerID : CustomerID) (totalCents : Int)
    (hid : id ≠ "") (hcust : customerID ≠ "") (htotal : 0 < totalCents) :
    ∃ o : Order, NewOrder now id customerID totalCents = (some o, none) ∧
      o.ID = id ∧ o.CustomerID = customerID ∧ o.TotalCents = totalCents ∧ o.ID ≠ "" := by
  refine ⟨{ ID := id, CustomerID := customerID, TotalCents := totalCents,
            CreatedAt := now.UTC }, ?_, rfl, rfl, rfl, hid⟩
  have hneg : ¬ totalCents ≤ 0 := not_le.mpr htotal
  simp [NewOrder, ValidateOrderID, ValidateCustomerID, ValidateTotal, hid, hcust, hneg]

theorem NewOrder_valid_witness :
    ∃ o : Order, NewOrder ⟨1704067200, 0, 0⟩ "order-123" "customer-456" 10000 = (some o, none) ∧
      o.ID = "order-123" ∧ o.CustomerID = "customer-456" ∧ o.TotalCents = 10000 ∧
      o.ID ≠ "" :=
  NewOrder_valid ⟨1704067200, 0, 0⟩ "order-123" "customer-456" 10000
    (by decide) (by decide) (by decide)

/-- Claim C10: `NewOrder` validates the order id, then the customer id, then the
total, and stops at the first failure: an empty id gives `(nil, ErrInvalidOrderID)`
whatever the rest; otherwise an empty customer id gives `(nil, ErrInvalidCustomerID)`;
otherwise a total `<= 0` gives `(nil, ErrInvalidTotal)`; an error is returned exactly
when one of the three conditions holds, and then the Order is nil. -/
theorem NewOrder_validation_order (now : Time) (id : OrderID) (customerID : CustomerID)
    (totalCents : Int) :
    (id = "" → NewOrder now id customerID totalCents = (none, some .ErrInvalidOrderID)) ∧
    (id ≠ "" → customerID = "" →
      NewOrder now id customerID totalCents = (none, some .ErrInvalidCustomerID)) ∧
    (id ≠ "" → customerID ≠ "" → totalCents ≤ 0 →
      NewOrder now id customerID totalCents = (none, some .ErrInvalidTotal)) ∧
    ((NewOrder now id customerID totalCents).2 ≠ none ↔
      (id = "" ∨ customerID = "" ∨ totalCents ≤ 0)) ∧
    ((NewOrder now id customerID totalCents).2 ≠ none →
      (NewOrder now id customerID totalCents).1 = none) := by
  by_cases hid : id = "" <;> by_cases hcust : customerID = "" <;>
    by_cases htotal : totalCents ≤ 0 <;>
    simp [NewOrder, ValidateOrderID, ValidateCustomerID, ValidateTotal, hid, hcust, htotal]

end EventPlatform

